import Mathlib

/-!
Verification development for the Tomasulo-with-ROB simulator
(`tomasulo.cpp`).  The C++ engine is shallowly embedded: every stage of
the pipeline (`commitInstruction`, `processWriteBack`, `issueInstruction`,
`startExecution`, `advanceExecution`, `stepSimulation`) is translated
into an executable Lean function over an explicit machine state.
C++ `std::map` tables (registers, register status) become total
functions whose default values coincide with the map's value-initialised
defaults; `std::queue<int>` becomes a `List Int` (push at the back, pop
at the front); string ROB tags (`""` or `to_string(i)`) become
`Option Int`/`Option Nat`; `cerr` diagnostics are collected in an
`errlog` field.
-/

namespace Tomasulo

/-- Instruction kinds, mirroring `enum InstructionType`. -/
inductive InstructionType where
  | ADD | SUB | MUL | DIV | LOAD | STORE | INVALID
deriving DecidableEq, Repr, Inhabited

/-- ROB entry states, mirroring `enum ROBState`. -/
inductive ROBState where
  | ROB_EMPTY | ROB_ISSUE | ROB_EXECUTE | ROB_WRITERESULT
deriving DecidableEq, Repr, Inhabited

open InstructionType ROBState

/-- One parsed program instruction (`struct Instruction`).
Cycle stamps use the C++ convention `-1` = unset. -/
structure Instruction where
  type : InstructionType := INVALID
  dest : String := ""
  src1 : String := ""
  src2 : String := ""
  issue : Int := -1
  execComp : Int := -1
  writeResult : Int := -1
  commitCycle : Int := -1
deriving DecidableEq, Repr, Inhabited

/-- One reorder-buffer entry (`struct ReorderBufferEntry`). -/
structure ReorderBufferEntry where
  busy : Bool := false
  instructionIndex : Int := -1
  type : InstructionType := INVALID
  state : ROBState := ROB_EMPTY
  destinationRegister : String := ""
  value : Int := 0
  address : Int := 0
  valueReady : Bool := false
deriving DecidableEq, Repr, Inhabited

/-- One reservation station (`struct ReservationStation`).
The C++ tags `Qj`, `Qk` are `""` or `to_string(robIdx)`: embedded as
`Option Int` (`none` = empty).  `destRobIndex` is likewise `""` or the
stringified index of a ROB slot, embedded as `Option Nat`. -/
structure ReservationStation where
  busy : Bool := false
  op : InstructionType := INVALID
  Vj : Int := 0
  Vk : Int := 0
  Qj : Option Int := none
  Qk : Option Int := none
  destRobIndex : Option Nat := none
  A : Int := 0
  instructionIndex : Int := -1
deriving DecidableEq, Repr, Inhabited

/-- Register-status (rename) table entry (`struct RegisterStatus`). -/
structure RegisterStatus where
  busy : Bool := false
  robIndex : Int := -1
deriving DecidableEq, Repr, Inhabited

/-- Tag for the four reservation-station groups (the C++ code uses the
strings "ADD", "MUL", "LOAD", "STORE"). -/
inductive RSGroup where
  | ADDg | MULg | LOADg | STOREg
deriving DecidableEq, Repr, Inhabited

open RSGroup

/-- An in-flight functional-unit record (`struct ExecutingInstruction`). -/
structure ExecutingInstruction where
  rsIndex : Nat := 0
  rsType : RSGroup := ADDg
  remainingCycles : Int := 0
  instructionIndex : Int := -1
deriving DecidableEq, Repr, Inhabited

/-- The whole simulator state (the fields of `class TomasuloSimulator`).
`registers`, `regStatus` embed the `std::map`s as total functions whose
value at an absent key is the map's value-initialised default; `memory`
embeds `int memory[1024]` (only indices in `[0, 1024)` are ever read or
written by the guarded code).  `errlog` collects `cerr` diagnostics. -/
structure TomasuloSimulator where
  instructions : List Instruction := []
  addRS : List ReservationStation := []
  mulRS : List ReservationStation := []
  loadRS : List ReservationStation := []
  storeRS : List ReservationStation := []
  rob : Nat → ReorderBufferEntry := fun _ => {}
  registers : String → Int := fun _ => 0
  regStatus : String → RegisterStatus := fun _ => {}
  memory : Int → Int := fun a => a
  cycle : Nat := 0
  nextInstructionIndex : Nat := 0
  robHead : Nat := 0
  robTail : Nat := 0
  robEntriesAvailable : Nat := 0
  ROB_SIZE : Nat := 0
  executingInstructions : List ExecutingInstruction := []
  completedForCDB : List Int := []
  errlog : List String := []

/-- Functional-unit latencies: the constructor fixes
`ADD_LATENCY(2), MUL_LATENCY(10), DIV_LATENCY(40), LOAD_LATENCY(2),
STORE_LATENCY(2)` regardless of its arguments. -/
def ADD_LATENCY : Int := 2
def MUL_LATENCY : Int := 10
def DIV_LATENCY : Int := 40
def LOAD_LATENCY : Int := 2
def STORE_LATENCY : Int := 2

/-- Point update of a function-embedded table. -/
def fUpd {α : Type} [DecidableEq α] {β : Type} (f : α → β) (x : α) (v : β) : α → β :=
  fun y => if y = x then v else f y

/-- Point update of the ROB (mutation of `rob[i]`). -/
def robUpd (r : Nat → ReorderBufferEntry) (i : Nat)
    (f : ReorderBufferEntry → ReorderBufferEntry) : Nat → ReorderBufferEntry :=
  fun j => if j = i then f (r j) else r j

/-- In-place update of a list element (mutation of `v[i]`); out-of-range
indices leave the list unchanged, as the C++ code never uses them. -/
def updAt {α : Type} : List α → Nat → (α → α) → List α
  | [], _, _ => []
  | a :: l, 0, f => f a :: l
  | a :: l, n + 1, f => a :: updAt l n f

/-- `instructions[i]` for an `int` index (always in range in the code). -/
def updAtI (l : List Instruction) (i : Int) (f : Instruction → Instruction) :
    List Instruction :=
  updAt l i.toNat f

/-- `atoi`: skip leading whitespace, optional sign, then decimal digits,
stopping at the first non-digit (0 when there are no digits). -/
def atoiDigits : List Char → Int → Int
  | [], acc => acc
  | c :: cs, acc =>
      if c.isDigit then atoiDigits cs (acc * 10 + ((c.toNat : Int) - 48))
      else acc

def atoi (str : String) : Int :=
  let cs := str.data.dropWhile Char.isWhitespace
  match cs with
  | '-' :: rest => - atoiDigits rest 0
  | '+' :: rest => atoiDigits rest 0
  | rest => atoiDigits rest 0

/-- The first free station of a list, searched from index 0
(the inner loops of `findFreeRS`). -/
def freeIdx : Nat → List ReservationStation → Option Nat
  | _, [] => none
  | i, rs :: rest => if rs.busy then freeIdx (i + 1) rest else some i

/-- `findFreeRS`: a free station in the group matching the type. -/
def findFreeRS (s : TomasuloSimulator) (t : InstructionType) : Option (RSGroup × Nat) :=
  match t with
  | ADD => (freeIdx 0 s.addRS).map (fun i => (ADDg, i))
  | SUB => (freeIdx 0 s.addRS).map (fun i => (ADDg, i))
  | MUL => (freeIdx 0 s.mulRS).map (fun i => (MULg, i))
  | DIV => (freeIdx 0 s.mulRS).map (fun i => (MULg, i))
  | LOAD => (freeIdx 0 s.loadRS).map (fun i => (LOADg, i))
  | STORE => (freeIdx 0 s.storeRS).map (fun i => (STOREg, i))
  | INVALID => none

/-- The stations of one group. -/
def rsGroup (s : TomasuloSimulator) : RSGroup → List ReservationStation
  | ADDg => s.addRS
  | MULg => s.mulRS
  | LOADg => s.loadRS
  | STOREg => s.storeRS

/-- Read one station (C++ `addRS[i]` etc.). -/
def getRS (s : TomasuloSimulator) (g : RSGroup) (i : Nat) : ReservationStation :=
  (rsGroup s g).getD i {}

/-- Write back one group of stations into the state. -/
def setRSGroup (s : TomasuloSimulator) (g : RSGroup)
    (l : List ReservationStation) : TomasuloSimulator :=
  match g with
  | ADDg => { s with addRS := l }
  | MULg => { s with mulRS := l }
  | LOADg => { s with loadRS := l }
  | STOREg => { s with storeRS := l }

/-- Update one station in place. -/
def updRS (s : TomasuloSimulator) (g : RSGroup) (i : Nat)
    (f : ReservationStation → ReservationStation) : TomasuloSimulator :=
  setRSGroup s g (updAt (rsGroup s g) i f)

/-- `instructions[i]` with the C++ in-range convention. -/
def getInstr (s : TomasuloSimulator) (i : Nat) : Instruction :=
  s.instructions.getD i {}

/-- Operand capture at Issue (the duplicated `Vj/Qj` and `Vk/Qk` blocks of
`issueInstruction`, lines 210-268): given the source-register name, the
register file, rename table and the ROB after tail allocation, produce
the `(V, Q)` pair written into the station (`V = none` means the C++
code leaves the old V field untouched). -/
def captureOperand (s : TomasuloSimulator) (rob1 : Nat → ReorderBufferEntry)
    (src : String) : Option Int × Option Int :=
  if (s.regStatus src).busy then
    let producingRobIdx := (s.regStatus src).robIndex
    if (rob1 producingRobIdx.toNat).busy ∧
        (rob1 producingRobIdx.toNat).state = ROB_WRITERESULT ∧
        (rob1 producingRobIdx.toNat).valueReady then
      (some (rob1 producingRobIdx.toNat).value, none)
    else
      (none, some producingRobIdx)
  else
    (some (s.registers src), none)

/-- The ROB entry written into the tail slot at Issue (step 1,
lines 169-177). -/
def issueRobEntry (s : TomasuloSimulator) : ReorderBufferEntry :=
  let inst := s.instructions.getD s.nextInstructionIndex {}
  { busy := true
    instructionIndex := (s.nextInstructionIndex : Int)
    type := inst.type
    state := ROB_ISSUE
    destinationRegister := if inst.type ≠ STORE then inst.dest else ""
    value := 0
    address := 0
    valueReady := false }

/-- The ROB after the tail allocation of Issue. -/
def issueRobAlloc (s : TomasuloSimulator) : Nat → ReorderBufferEntry :=
  robUpd s.rob s.robTail (fun _ => issueRobEntry s)

/-- The station contents written at Issue (steps 2, 3 and 5,
lines 195-287): bookkeeping fields, the two operand captures (reading
the ROB after the tail allocation) and the STORE offset. -/
def issuedRS (s : TomasuloSimulator) (grp : RSGroup) (ri : Nat) : ReservationStation :=
  let inst := s.instructions.getD s.nextInstructionIndex {}
  let rob1 := issueRobAlloc s
  let rs0 := getRS s grp ri
  let rs1 := { rs0 with
    busy := true
    op := inst.type
    instructionIndex := (s.nextInstructionIndex : Int)
    destRobIndex := some s.robTail }
  -- operand 1 (Vj/Qj)
  let rs2 : ReservationStation :=
    if inst.type = LOAD then
      { rs1 with A := atoi inst.src1, Vj := 0, Qj := none }
    else if inst.src1 ≠ "" then
      match captureOperand s rob1 inst.src1 with
      | (some v, _) => { rs1 with Vj := v, Qj := none }
      | (none, q) => { rs1 with Qj := q }
    else
      { rs1 with Vj := 0, Qj := none }
  -- operand 2 (Vk/Qk)
  let rs3 : ReservationStation :=
    if inst.type = ADD ∨ inst.type = SUB ∨ inst.type = MUL ∨ inst.type = DIV ∨
        inst.type = LOAD ∨ inst.type = STORE then
      if inst.src2 ≠ "" then
        match captureOperand s rob1 inst.src2 with
        | (some v, _) => { rs2 with Vk := v, Qk := none }
        | (none, q) => { rs2 with Qk := q }
      else
        { rs2 with Vk := 0, Qk := none }
    else
      { rs2 with Vk := 0, Qk := none }
  -- STORE at Issue: the offset lives in inst.dest
  if inst.type = STORE then { rs3 with A := atoi inst.dest } else rs3

/-- The successful path of `issueInstruction` (lines 167-299), once a
free station `(grp, ri)` has been found: allocate the ROB tail slot,
fill the station, capture operands with ROB early-forwarding, handle
the STORE early-value case, rename the destination register, advance
the PC. -/
def issueCore (s : TomasuloSimulator) (grp : RSGroup) (ri : Nat) : TomasuloSimulator :=
      let inst := s.instructions.getD s.nextInstructionIndex {}
      let currentRobIdx := s.robTail
      let rob1 := issueRobAlloc s
      let robTail1 := (s.robTail + 1) % s.ROB_SIZE
      let avail1 := s.robEntriesAvailable - 1
      let instrs1 := updAt s.instructions s.nextInstructionIndex
        (fun i0 => { i0 with issue := (s.cycle : Int) })
      let rs4 := issuedRS s grp ri
      -- STORE at Issue: if the data operand is already known, populate
      -- the STORE's own ROB entry early.
      let rob2 :=
        if inst.type = STORE then
          if rs4.Qj = none then
            robUpd rob1 currentRobIdx
              (fun e => { e with value := rs4.Vj, valueReady := true })
          else rob1
        else rob1
      -- 4. rename the destination register
      let regStatus1 :=
        if inst.type ≠ STORE then
          fUpd s.regStatus inst.dest { busy := true, robIndex := (currentRobIdx : Int) }
        else s.regStatus
      let s1 := setRSGroup s grp (updAt (rsGroup s grp) ri (fun _ => rs4))
      { s1 with
        rob := rob2
        robTail := robTail1
        robEntriesAvailable := avail1
        instructions := instrs1
        regStatus := regStatus1
        nextInstructionIndex := s.nextInstructionIndex + 1 }

/-- `issueInstruction` (lines 151-300): the structural-stall guards,
then the successful path `issueCore`. -/
def issueInstruction (s : TomasuloSimulator) : TomasuloSimulator :=
  if s.nextInstructionIndex ≥ s.instructions.length ∨ s.robEntriesAvailable = 0 then
    s
  else
    match findFreeRS s (s.instructions.getD s.nextInstructionIndex {}).type with
    | none => s
    | some (grp, ri) => issueCore s grp ri

/-- Index-tagged enumeration of a list (the `for (i = 0; i < size; ++i)`
loops), starting at a given index. -/
def enumFrom {α : Type} : Nat → List α → List (Nat × α)
  | _, [] => []
  | i, a :: l => (i, a) :: enumFrom (i + 1) l

/-- The iteration order of `startExecution`: ADD, MUL, LOAD, STORE
groups, each by ascending station index. -/
def startEntries (s : TomasuloSimulator) : List (RSGroup × Nat × ReservationStation) :=
  (enumFrom 0 s.addRS).map (fun p => (ADDg, p.1, p.2)) ++
  (enumFrom 0 s.mulRS).map (fun p => (MULg, p.1, p.2)) ++
  (enumFrom 0 s.loadRS).map (fun p => (LOADg, p.1, p.2)) ++
  (enumFrom 0 s.storeRS).map (fun p => (STOREg, p.1, p.2))

/-- The latency chosen at dispatch (`base_latencies` with the MUL/DIV
special case). -/
def dispatchLatency (g : RSGroup) (op : InstructionType) : Int :=
  match g with
  | MULg => if op = MUL then MUL_LATENCY else DIV_LATENCY
  | ADDg => ADD_LATENCY
  | LOADg => LOAD_LATENCY
  | STOREg => STORE_LATENCY

/-- Body of the `startExecution` loops: for each ready, not-yet-dispatched
station create an in-flight record, move its ROB entry to Executing and
apply the STORE value coupling.  The accumulator is the pair
(ROB, executing list) mutated as the C++ loop runs. -/
def startGo : List (RSGroup × Nat × ReservationStation) →
    (Nat → ReorderBufferEntry) → List ExecutingInstruction →
    (Nat → ReorderBufferEntry) × List ExecutingInstruction
  | [], rob, ex => (rob, ex)
  | (grp, i, rs) :: rest, rob, ex =>
    if rs.busy ∧ rs.Qj = none ∧ rs.Qk = none ∧
        ¬ ∃ e ∈ ex, e.rsType = grp ∧ e.rsIndex = i then
      let robIdxForInst := rs.destRobIndex.getD 0
      let rob1 :=
        if (rob robIdxForInst).busy ∧ (rob robIdxForInst).state = ROB_ISSUE then
          robUpd rob robIdxForInst (fun e => { e with state := ROB_EXECUTE })
        else rob
      let ex1 := ex ++ [{ rsIndex := i, rsType := grp,
                          remainingCycles := dispatchLatency grp rs.op,
                          instructionIndex := rs.instructionIndex }]
      let rob2 :=
        if rs.op = STORE ∧ (rob1 robIdxForInst).busy ∧
            ¬ (rob1 robIdxForInst).valueReady then
          robUpd rob1 robIdxForInst
            (fun e => { e with value := rs.Vj, valueReady := true })
        else rob1
      startGo rest rob2 ex1
    else
      startGo rest rob ex

/-- `startExecution` (lines 303-366). -/
def startExecution (s : TomasuloSimulator) : TomasuloSimulator :=
  let p := startGo (startEntries s) s.rob s.executingInstructions
  { s with rob := p.1, executingInstructions := p.2 }

/-- Body of the `advanceExecution` loop: decrement every in-flight
record once; a record reaching zero (or below) stamps
`executionComplete`, leaves the tracker and joins the CDB FIFO. -/
def advanceGo (cyc : Int) : List ExecutingInstruction → List Instruction →
    List Int → List ExecutingInstruction × List Instruction × List Int
  | [], instrs, cdb => ([], instrs, cdb)
  | e :: rest, instrs, cdb =>
    let r := e.remainingCycles - 1
    if r ≤ 0 then
      advanceGo cyc rest
        (updAtI instrs e.instructionIndex (fun i0 => { i0 with execComp := cyc }))
        (cdb ++ [e.instructionIndex])
    else
      let p := advanceGo cyc rest instrs cdb
      ({ e with remainingCycles := r } :: p.1, p.2.1, p.2.2)

/-- `advanceExecution` (lines 369-388). -/
def advanceExecution (s : TomasuloSimulator) : TomasuloSimulator :=
  let p := advanceGo (s.cycle : Int) s.executingInstructions s.instructions
    s.completedForCDB
  { s with executingInstructions := p.1, instructions := p.2.1,
           completedForCDB := p.2.2 }

/-- CDB broadcast to one station (`updateDependentRS` loop body): fill a
matching `Qj`/`Qk`, and for a STORE whose data operand matched, mirror
the value into the STORE's own ROB entry. -/
def bcastRS (producingRobIdx : Nat) (resultValue : Int)
    (rob : Nat → ReorderBufferEntry) (rs : ReservationStation) :
    ReservationStation × (Nat → ReorderBufferEntry) :=
  if rs.busy then
    let p :=
      if rs.Qj = some (producingRobIdx : Int) then
        let rs1 := { rs with Vj := resultValue, Qj := none }
        if rs.op = STORE then
          let storeOwnRobIdx := rs.destRobIndex.getD 0
          if (rob storeOwnRobIdx).busy then
            (rs1, robUpd rob storeOwnRobIdx
              (fun e => { e with value := resultValue, valueReady := true }))
          else (rs1, rob)
        else (rs1, rob)
      else (rs, rob)
    let rs2 := if p.1.Qk = some (producingRobIdx : Int) then
        { p.1 with Vk := resultValue, Qk := none }
      else p.1
    (rs2, p.2)
  else (rs, rob)

/-- Broadcast over one station group, threading the ROB. -/
def bcastGroup (producingRobIdx : Nat) (resultValue : Int) :
    List ReservationStation → (Nat → ReorderBufferEntry) →
    List ReservationStation × (Nat → ReorderBufferEntry)
  | [], rob => ([], rob)
  | rs :: rest, rob =>
    let p := bcastRS producingRobIdx resultValue rob rs
    let q := bcastGroup producingRobIdx resultValue rest p.2
    (p.1 :: q.1, q.2)

/-- `updateDependentRS` (lines 526-565): broadcast the result over all
four groups in order, threading the ROB through the STORE side effect. -/
def updateDependentRS (s : TomasuloSimulator) (producingRobIdx : Nat)
    (resultValue : Int) : TomasuloSimulator :=
  let pa := bcastGroup producingRobIdx resultValue s.addRS s.rob
  let pm := bcastGroup producingRobIdx resultValue s.mulRS pa.2
  let pl := bcastGroup producingRobIdx resultValue s.loadRS pm.2
  let ps := bcastGroup producingRobIdx resultValue s.storeRS pl.2
  { s with addRS := pa.1, mulRS := pm.1, loadRS := pl.1, storeRS := ps.1,
           rob := ps.2 }

/-- First busy station holding the instruction index
(`instructionIndex == idx && busy`), searched from a start index. -/
def findBusyIdx (idx : Int) : Nat → List ReservationStation → Option Nat
  | _, [] => none
  | i, rs :: rest =>
    if rs.instructionIndex = idx ∧ rs.busy then some i
    else findBusyIdx idx (i + 1) rest

/-- The RS search of `processWriteBack` (lines 407-443): ADD, then MUL,
then LOAD, then STORE group. -/
def findRS4 (s : TomasuloSimulator) (idx : Int) : Option (RSGroup × Nat) :=
  match findBusyIdx idx 0 s.addRS with
  | some i => some (ADDg, i)
  | none =>
    match findBusyIdx idx 0 s.mulRS with
    | some i => some (MULg, i)
    | none =>
      match findBusyIdx idx 0 s.loadRS with
      | some i => some (LOADg, i)
      | none =>
        match findBusyIdx idx 0 s.storeRS with
        | some i => some (STOREg, i)
        | none => none

/-- Released (freed) station: the fields cleared at the end of
`processWriteBack` (`op` is deliberately not reset, as in the source). -/
def releaseRS (rs : ReservationStation) : ReservationStation :=
  { rs with busy := false, instructionIndex := -1, Qj := none, Qk := none,
            Vj := 0, Vk := 0, A := 0, destRobIndex := none }

/-- Pop the CDB head and stamp `writeResult` (lines 396-401). -/
def wbStamp (s : TomasuloSimulator) (originalInstIndex : Int) (rest : List Int) :
    TomasuloSimulator :=
  { s with
    completedForCDB := rest
    instructions := updAtI s.instructions originalInstIndex
      (fun i0 => { i0 with writeResult := (s.cycle : Int) }) }

/-- The `switch (inst.type)` of `processWriteBack` (lines 458-501):
result value, ROB with the effective-address update (for LOAD/STORE),
and diagnostics.  `none` encodes the early-returning INVALID arm.
`Int.tdiv` (truncation toward zero) mirrors C++ `int` division. -/
def wbCompute (s : TomasuloSimulator) (inst : Instruction)
    (rs : ReservationStation) (producingRobIdx : Nat) :
    Option (Int × (Nat → ReorderBufferEntry) × List String) :=
  match inst.type with
  | ADD => some (rs.Vj + rs.Vk, s.rob, s.errlog)
  | SUB => some (rs.Vj - rs.Vk, s.rob, s.errlog)
  | MUL => some (rs.Vj * rs.Vk, s.rob, s.errlog)
  | DIV =>
    if rs.Vk ≠ 0 then some (rs.Vj.tdiv rs.Vk, s.rob, s.errlog)
    else some (0, s.rob, s.errlog ++ ["divide by zero"])
  | LOAD =>
    let effectiveAddr := rs.A + rs.Vk
    let res :=
      if 0 ≤ effectiveAddr ∧ effectiveAddr < 1024 then
        (s.memory effectiveAddr, s.errlog)
      else (0, s.errlog ++ ["invalid LOAD address"])
    some (res.1,
      robUpd s.rob producingRobIdx (fun e => { e with address := effectiveAddr }),
      res.2)
  | STORE =>
    let effectiveAddr := rs.A + rs.Vk
    some (rs.Vj,
      robUpd s.rob producingRobIdx (fun e => { e with address := effectiveAddr }),
      s.errlog)
  | INVALID => none

/-- The tail of `processWriteBack` (lines 503-523): if the ROB entry is
still busy, write the value into it and broadcast; then release the
producing station. -/
def wbApply (s1 : TomasuloSimulator) (grp : RSGroup) (ri : Nat)
    (producingRobIdx : Nat) (resultData : Int)
    (robA : Nat → ReorderBufferEntry) (errs : List String) : TomasuloSimulator :=
  let s2 :=
    if (robA producingRobIdx).busy then
      let robB := robUpd robA producingRobIdx (fun e =>
        { e with value := resultData, valueReady := true,
                 state := ROB_WRITERESULT })
      updateDependentRS { s1 with rob := robB, errlog := errs }
        producingRobIdx resultData
    else
      { s1 with rob := robA, errlog := errs }
  updRS s2 grp ri releaseRS

/-- `processWriteBack` (lines 391-523): pop one CDB entry, stamp
`writeResult`, locate the producing station, compute the result or
effective address, update the ROB entry, broadcast, release the RS. -/
def processWriteBack (s : TomasuloSimulator) : TomasuloSimulator :=
  match s.completedForCDB with
  | [] => s
  | originalInstIndex :: rest =>
    let s1 := wbStamp s originalInstIndex rest
    match findRS4 s originalInstIndex with
    | none => s1
    | some (grp, ri) =>
      let rs := getRS s grp ri
      match rs.destRobIndex with
      | none => s1
      | some producingRobIdx =>
        match wbCompute s (s.instructions.getD originalInstIndex.toNat {}) rs
            producingRobIdx with
        | none =>
          -- the INVALID arm returns early: no RS release, no ROB update
          { s1 with errlog := s.errlog ++ ["invalid instruction at WriteBack"] }
        | some (resultData, robA, errs) =>
          wbApply s1 grp ri producingRobIdx resultData robA errs

/-- `commitInstruction` (lines 569-633): commit the ROB head when its
result has been written, with the STORE data-readiness head-of-line
block, the out-of-range STORE diagnostic, and the retarget-aware
register-status clearing. -/
def commitInstruction (s : TomasuloSimulator) : TomasuloSimulator :=
  if s.robEntriesAvailable = s.ROB_SIZE ∨ ¬ (s.rob s.robHead).busy then s
  else
    let headEntry := s.rob s.robHead
    if headEntry.state = ROB_WRITERESULT then
      if headEntry.type = STORE ∧ ¬ headEntry.valueReady then s
      else
        let instrs1 := updAtI s.instructions headEntry.instructionIndex
          (fun i0 => { i0 with commitCycle := (s.cycle : Int) })
        let arch :
            (String → Int) × (String → RegisterStatus) × (Int → Int) × List String :=
          if headEntry.type ≠ STORE then
            let regs1 := fUpd s.registers headEntry.destinationRegister headEntry.value
            let rst1 :=
              if (s.regStatus headEntry.destinationRegister).busy ∧
                  (s.regStatus headEntry.destinationRegister).robIndex = (s.robHead : Int) then
                fUpd s.regStatus headEntry.destinationRegister
                  { busy := false, robIndex := -1 }
              else s.regStatus
            (regs1, rst1, s.memory, s.errlog)
          else
            if 0 ≤ headEntry.address ∧ headEntry.address < 1024 then
              (s.registers, s.regStatus,
                fUpd s.memory headEntry.address headEntry.value, s.errlog)
            else
              (s.registers, s.regStatus, s.memory,
                s.errlog ++ ["invalid STORE address at Commit"])
        let rob1 := robUpd s.rob s.robHead
          (fun e => { e with busy := false, state := ROB_EMPTY })
        { s with
          instructions := instrs1
          registers := arch.1
          regStatus := arch.2.1
          memory := arch.2.2.1
          errlog := arch.2.2.2
          rob := rob1
          robHead := (s.robHead + 1) % s.ROB_SIZE
          robEntriesAvailable := s.robEntriesAvailable + 1 }
    else s

/-- The stage tail of a cycle: Execute-Advance, then the cycle counter
increment. -/
def stepFinish (s : TomasuloSimulator) : TomasuloSimulator :=
  let s5 := advanceExecution s
  { s5 with cycle := s5.cycle + 1 }

/-- The stage head of a cycle: Commit, Write-Result, Issue,
Execute-Start. -/
def midStep (s : TomasuloSimulator) : TomasuloSimulator :=
  startExecution (issueInstruction (processWriteBack (commitInstruction s)))

/-- `stepSimulation` (lines 774-791): the five stages in order, then the
cycle increment. -/
def stepSimulation (s : TomasuloSimulator) : TomasuloSimulator :=
  stepFinish (midStep s)

/-- `isSimulationComplete` (lines 747-771). -/
def isSimulationComplete (s : TomasuloSimulator) : Prop :=
  s.nextInstructionIndex ≥ s.instructions.length ∧
  s.robEntriesAvailable = s.ROB_SIZE ∧
  s.executingInstructions = [] ∧
  s.completedForCDB = [] ∧
  ∀ inst ∈ s.instructions, inst.commitCycle ≠ -1

instance (s : TomasuloSimulator) : Decidable (isSimulationComplete s) := by
  unfold isSimulationComplete; infer_instance

/-- The 32 architectural register names `F0` .. `F31`. -/
def regNames : List String := (List.range 32).map (fun i => "F" ++ toString i)

/-- The constructor `TomasuloSimulator(...)` followed by
`loadInstructions`: registers `F0..F31` start at 10 (a `std::map` read
of any other name would default to 0), `memory[i] = i`, all tables
free. -/
def mkSimulator (addRSCount mulRSCount loadRSCount storeRSCount rob_s : Nat)
    (prog : List Instruction) : TomasuloSimulator :=
  { instructions := prog
    addRS := List.replicate addRSCount {}
    mulRS := List.replicate mulRSCount {}
    loadRS := List.replicate loadRSCount {}
    storeRS := List.replicate storeRSCount {}
    rob := fun _ => {}
    registers := fun r => if r ∈ regNames then 10 else 0
    regStatus := fun _ => {}
    memory := fun a => a
    cycle := 0
    nextInstructionIndex := 0
    robHead := 0
    robTail := 0
    robEntriesAvailable := rob_s
    ROB_SIZE := rob_s
    executingInstructions := []
    completedForCDB := []
    errlog := [] }

/-- Iterate `stepSimulation` (the driver loop, fuel-bounded). -/
def runN : Nat → TomasuloSimulator → TomasuloSimulator
  | 0, s => s
  | n + 1, s => runN n (stepSimulation s)

/-- States reachable from a given start state by whole cycles. -/
inductive Reachable (s0 : TomasuloSimulator) : TomasuloSimulator → Prop where
  | refl : Reachable s0 s0
  | step {t : TomasuloSimulator} : Reachable s0 t → Reachable s0 (stepSimulation t)

/-- All stations of the four groups, in group order. -/
def allRS (s : TomasuloSimulator) : List ReservationStation :=
  s.addRS ++ s.mulRS ++ s.loadRS ++ s.storeRS

/-- Pointwise form of the STORE write-result data invariant: a busy entry
in state WroteResult of kind STORE has its value ready. -/
def ROBok (e : ReorderBufferEntry) : Prop :=
  e.busy → e.state = ROB_WRITERESULT → e.type = STORE → e.valueReady

instance (e : ReorderBufferEntry) : Decidable (ROBok e) := by
  unfold ROBok; infer_instance

/-- The STORE data invariant over the whole ROB. -/
def StoreWrInv (s : TomasuloSimulator) : Prop :=
  ∀ i, ROBok (s.rob i)

/-- One group's share of `RSkeySafe`: within group `g`, every busy
station holding instruction `m` is the station `(g0, i0)`. -/
def RSkeySafeG (s : TomasuloSimulator) (m : Nat) (g0 : RSGroup) (i0 : Nat)
    (g : RSGroup) : Prop :=
  ∀ i, i < (rsGroup s g).length → (getRS s g i).busy = true →
    (getRS s g i).instructionIndex.toNat = m → g = g0 ∧ i = i0

instance (s : TomasuloSimulator) (m : Nat) (g0 : RSGroup) (i0 : Nat) (g : RSGroup) :
    Decidable (RSkeySafeG s m g0 i0 g) := by
  unfold RSkeySafeG; infer_instance

/-- Every busy station holding instruction `m` is the single station
`(g0, i0)` that issued it.  This is how the machine itself looks while
`m` is in flight: `m` was issued to exactly one station, which stays
busy holding `m` from Issue until Write-Result. -/
def RSkeySafe (s : TomasuloSimulator) (m : Nat) (g0 : RSGroup) (i0 : Nat) : Prop :=
  ∀ g, RSkeySafeG s m g0 i0 g

instance (s : TomasuloSimulator) (m : Nat) (g0 : RSGroup) (i0 : Nat) :
    Decidable (RSkeySafe s m g0 i0) :=
  decidable_of_iff
    (RSkeySafeG s m g0 i0 ADDg ∧ RSkeySafeG s m g0 i0 MULg ∧
      RSkeySafeG s m g0 i0 LOADg ∧ RSkeySafeG s m g0 i0 STOREg)
    (by
      constructor
      · rintro ⟨hA, hM, hL, hS⟩ g
        cases g
        · exact hA
        · exact hM
        · exact hL
        · exact hS
      · intro h
        exact ⟨h ADDg, h MULg, h LOADg, h STOREg⟩)

/-- Tracking invariant for the in-flight record that Execute-Start
created on station `(g0, i0)` for instruction `m`: the tracker holds
exactly one record for `m`, that record sits on `(g0, i0)` with `r`
remaining cycles, every busy station holding `m` is `(g0, i0)` itself
(so the `alreadyExecuting` scan blocks any second dispatch of `m` while
the record lives), and `m` is already issued.  All four conjuncts hold
at every record-creation event of the machine: the dispatching station
is the unique busy station holding `m`, and its key has just been
pushed into the tracker. -/
def TrackInv (s : TomasuloSimulator) (m : Nat) (g0 : RSGroup) (i0 : Nat)
    (r : Int) : Prop :=
  s.executingInstructions.countP (fun e => e.instructionIndex.toNat == m) = 1 ∧
  (∀ e ∈ s.executingInstructions, e.instructionIndex.toNat = m →
    e.remainingCycles = r ∧ e.rsType = g0 ∧ e.rsIndex = i0) ∧
  RSkeySafe s m g0 i0 ∧
  m < s.nextInstructionIndex

instance (s : TomasuloSimulator) (m : Nat) (g0 : RSGroup) (i0 : Nat) (r : Int) :
    Decidable (TrackInv s m g0 i0 r) := by
  unfold TrackInv; infer_instance

/-- The operand-capture contract of the spec, for one source register
`src` and the `(V, Q)` pair finally stored in the station: if the
rename entry is free, V holds the register file value and Q is clear;
if it is busy with ROB index `p` and `rob[p]` is busy, in state
WroteResult and value-ready, V holds `rob[p].value` and Q is clear;
otherwise Q holds the tag of `p` (V unconstrained). -/
def captureProp (s : TomasuloSimulator) (src : String) (v : Int) (q : Option Int) : Prop :=
  ((s.regStatus src).busy = false → v = s.registers src ∧ q = none) ∧
  ((s.regStatus src).busy = true →
    (((s.rob (s.regStatus src).robIndex.toNat).busy = true ∧
      (s.rob (s.regStatus src).robIndex.toNat).state = ROB_WRITERESULT ∧
      (s.rob (s.regStatus src).robIndex.toNat).valueReady = true) →
        v = (s.rob (s.regStatus src).robIndex.toNat).value ∧ q = none) ∧
    (¬((s.rob (s.regStatus src).robIndex.toNat).busy = true ∧
       (s.rob (s.regStatus src).robIndex.toNat).state = ROB_WRITERESULT ∧
       (s.rob (s.regStatus src).robIndex.toNat).valueReady = true) →
        q = some (s.regStatus src).robIndex))

instance (s : TomasuloSimulator) (src : String) (v : Int) (q : Option Int) :
    Decidable (captureProp s src v q) := by
  unfold captureProp; infer_instance

/-- Spec scenario 6: `ADD F1,F2,F3` / `MUL F4,F1,F5` / `S.D F4,0(F0)`
(for a STORE the parser puts the data register in `src1`, the offset in
`dest` and the base register in `src2`). -/
def prog6 : List Instruction :=
  [ { type := ADD, dest := "F1", src1 := "F2", src2 := "F3" },
    { type := MUL, dest := "F4", src1 := "F1", src2 := "F5" },
    { type := STORE, dest := "0", src1 := "F4", src2 := "F0" } ]

/-- Scenario 6 started from the default configuration. -/
def init6 : TomasuloSimulator := mkSimulator 3 2 3 3 16 prog6

/-- Scenario 6 after 16 cycles (the cycle in which it completes). -/
def fin6 : TomasuloSimulator := runN 16 init6

/-- A state whose CDB FIFO holds instruction 0 while every station is
free: the missing-RS path of Write-Result. -/
def wsOrphan : TomasuloSimulator :=
  { mkSimulator 3 2 3 3 16 [ { type := ADD, dest := "F1", src1 := "F2", src2 := "F3" } ] with
    completedForCDB := [0] }

/-- A state with a completed ADD at the ROB head, its rename entry still
pointing at the head: the non-STORE Commit scenario. -/
def wsCommitAdd : TomasuloSimulator :=
  { mkSimulator 3 2 3 3 16 [ { type := ADD, dest := "F1", src1 := "F2", src2 := "F3" } ] with
    rob := fun j => if j = 0 then
        { busy := true, instructionIndex := 0, type := ADD,
          state := ROB_WRITERESULT, destinationRegister := "F1",
          value := 7, address := 0, valueReady := true }
      else {}
    robTail := 1
    robEntriesAvailable := 15
    regStatus := fun r => if r = "F1" then { busy := true, robIndex := 0 } else {} }

/-- A state with a completed STORE at the ROB head, data ready, address
10: the STORE Commit scenario. -/
def wsCommitStore : TomasuloSimulator :=
  { mkSimulator 3 2 3 3 16 [ { type := STORE, dest := "0", src1 := "F4", src2 := "F0" } ] with
    rob := fun j => if j = 0 then
        { busy := true, instructionIndex := 0, type := STORE,
          state := ROB_WRITERESULT, destinationRegister := "",
          value := 5, address := 10, valueReady := true }
      else {}
    robTail := 1
    robEntriesAvailable := 15 }

/-- The initial state of a one-instruction `ADD F1,F2,F3` program: the
Issue scenario. -/
def wsIssue : TomasuloSimulator :=
  mkSimulator 3 2 3 3 16 [ { type := ADD, dest := "F1", src1 := "F2", src2 := "F3" } ]

/-! ### Basic lemmas about the table helpers -/

theorem fUpd_eq {α : Type} [DecidableEq α] {β : Type} (f : α → β) (x : α) (v : β) :
    fUpd f x v x = v := by
  simp [fUpd]

theorem fUpd_ne {α : Type} [DecidableEq α] {β : Type} (f : α → β) (x y : α) (v : β)
    (h : y ≠ x) : fUpd f x v y = f y := by
  simp [fUpd, h]

theorem robUpd_eq (r : Nat → ReorderBufferEntry) (i : Nat)
    (f : ReorderBufferEntry → ReorderBufferEntry) : robUpd r i f i = f (r i) := by
  simp [robUpd]

theorem robUpd_ne (r : Nat → ReorderBufferEntry) (i j : Nat)
    (f : ReorderBufferEntry → ReorderBufferEntry) (h : j ≠ i) :
    robUpd r i f j = r j := by
  simp [robUpd, h]

theorem length_updAt {α : Type} (l : List α) (i : Nat) (f : α → α) :
    (updAt l i f).length = l.length := by
  induction l generalizing i with
  | nil => rfl
  | cons a t ih =>
    cases i with
    | zero => rfl
    | succ n => simpa [updAt] using ih n

theorem getD_updAt_eq {α : Type} (l : List α) (i : Nat) (f : α → α) (d : α)
    (h : i < l.length) : (updAt l i f).getD i d = f (l.getD i d) := by
  induction l generalizing i with
  | nil => simp at h
  | cons a t ih =>
    cases i with
    | zero => rfl
    | succ n =>
      simp only [updAt, List.getD_cons_succ]
      exact ih n (by simpa using h)

theorem getD_updAt_ne {α : Type} (l : List α) (i j : Nat) (f : α → α) (d : α)
    (h : i ≠ j) : (updAt l j f).getD i d = l.getD i d := by
  induction l generalizing i j with
  | nil => rfl
  | cons a t ih =>
    cases j with
    | zero =>
      cases i with
      | zero => exact absurd rfl h
      | succ n => rfl
    | succ k =>
      cases i with
      | zero => rfl
      | succ n =>
        simp only [updAt, List.getD_cons_succ]
        exact ih n k (by omega)

theorem mem_updAt {α : Type} {l : List α} {i : Nat} {f : α → α} {a : α}
    (h : a ∈ updAt l i f) : a ∈ l ∨ ∃ b ∈ l, a = f b := by
  induction l generalizing i with
  | nil => simp [updAt] at h
  | cons x t ih =>
    cases i with
    | zero =>
      rcases List.mem_cons.mp h with h1 | h1
      · exact Or.inr ⟨x, by simp, h1⟩
      · exact Or.inl (List.mem_cons_of_mem _ h1)
    | succ n =>
      rcases List.mem_cons.mp h with h1 | h1
      · exact Or.inl (h1 ▸ List.mem_cons_self x t)
      · rcases ih h1 with h2 | ⟨b, hb, he⟩
        · exact Or.inl (List.mem_cons_of_mem _ h2)
        · exact Or.inr ⟨b, List.mem_cons_of_mem _ hb, he⟩

theorem updAt_forall {α : Type} {P : α → Prop} {l : List α} {i : Nat} {f : α → α}
    (hl : ∀ b ∈ l, P b) (hf : ∀ b, P b → P (f b)) :
    ∀ a ∈ updAt l i f, P a := by
  intro a ha
  rcases mem_updAt ha with h | ⟨b, hb, rfl⟩
  · exact hl a h
  · exact hf b (hl b hb)

theorem mem_enumFrom {α : Type} {l : List α} {n i : Nat} {a : α}
    (h : (i, a) ∈ enumFrom n l) : a ∈ l := by
  induction l generalizing n with
  | nil => simp [enumFrom] at h
  | cons x t ih =>
    rcases List.mem_cons.mp h with h1 | h1
    · rw [Prod.mk.injEq] at h1
      exact h1.2 ▸ List.mem_cons_self x t
    · exact List.mem_cons_of_mem _ (ih h1)

theorem freeIdx_some {l : List ReservationStation} :
    ∀ {n i : Nat}, freeIdx n l = some i → n ≤ i ∧ i - n < l.length := by
  induction l with
  | nil => intro n i h; simp [freeIdx] at h
  | cons rs t ih =>
    intro n i h
    simp only [freeIdx] at h
    by_cases hb : rs.busy
    · rw [if_pos hb] at h
      rcases ih h with ⟨h1, h2⟩
      constructor
      · omega
      · simp only [List.length_cons]; omega
    · rw [if_neg hb] at h
      cases h
      constructor
      · exact le_refl _
      · simp

theorem findBusyIdx_none {idx : Int} {l : List ReservationStation}
    (h : ∀ rs ∈ l, rs.busy → rs.instructionIndex ≠ idx) :
    ∀ n, findBusyIdx idx n l = none := by
  induction l with
  | nil => intro n; rfl
  | cons rs t ih =>
    intro n
    simp only [findBusyIdx]
    rw [if_neg, ih]
    · intro rs1 h1; exact h rs1 (List.mem_cons_of_mem _ h1)
    · intro hc
      exact h rs (List.mem_cons_self _ _) hc.2 hc.1

/-! ### Projection lemmas: what each pipeline stage leaves untouched -/

theorem updRS_exec (s : TomasuloSimulator) (g : RSGroup) (i : Nat)
    (f : ReservationStation → ReservationStation) :
    (updRS s g i f).executingInstructions = s.executingInstructions := by
  cases g <;> rfl

theorem updRS_cycle (s : TomasuloSimulator) (g : RSGroup) (i : Nat)
    (f : ReservationStation → ReservationStation) :
    (updRS s g i f).cycle = s.cycle := by
  cases g <;> rfl

theorem updRS_next (s : TomasuloSimulator) (g : RSGroup) (i : Nat)
    (f : ReservationStation → ReservationStation) :
    (updRS s g i f).nextInstructionIndex = s.nextInstructionIndex := by
  cases g <;> rfl

theorem updRS_instructions (s : TomasuloSimulator) (g : RSGroup) (i : Nat)
    (f : ReservationStation → ReservationStation) :
    (updRS s g i f).instructions = s.instructions := by
  cases g <;> rfl

theorem updRS_rob (s : TomasuloSimulator) (g : RSGroup) (i : Nat)
    (f : ReservationStation → ReservationStation) :
    (updRS s g i f).rob = s.rob := by
  cases g <;> rfl

theorem commitInstruction_cycle (s : TomasuloSimulator) :
    (commitInstruction s).cycle = s.cycle := by
  simp only [commitInstruction]
  repeat first | rfl | split

theorem commitInstruction_exec (s : TomasuloSimulator) :
    (commitInstruction s).executingInstructions = s.executingInstructions := by
  simp only [commitInstruction]
  repeat first | rfl | split

theorem commitInstruction_next (s : TomasuloSimulator) :
    (commitInstruction s).nextInstructionIndex = s.nextInstructionIndex := by
  simp only [commitInstruction]
  repeat first | rfl | split

theorem commitInstruction_cdb (s : TomasuloSimulator) :
    (commitInstruction s).completedForCDB = s.completedForCDB := by
  simp only [commitInstruction]
  repeat first | rfl | split

theorem commitInstruction_addRS (s : TomasuloSimulator) :
    (commitInstruction s).addRS = s.addRS := by
  simp only [commitInstruction]
  repeat first | rfl | split

theorem commitInstruction_mulRS (s : TomasuloSimulator) :
    (commitInstruction s).mulRS = s.mulRS := by
  simp only [commitInstruction]
  repeat first | rfl | split

theorem commitInstruction_loadRS (s : TomasuloSimulator) :
    (commitInstruction s).loadRS = s.loadRS := by
  simp only [commitInstruction]
  repeat first | rfl | split

theorem commitInstruction_storeRS (s : TomasuloSimulator) :
    (commitInstruction s).storeRS = s.storeRS := by
  simp only [commitInstruction]
  repeat first | rfl | split

theorem commitInstruction_instrLen (s : TomasuloSimulator) :
    (commitInstruction s).instructions.length = s.instructions.length := by
  simp only [commitInstruction]
  repeat first | rfl | split
  all_goals simp [updAtI, length_updAt]

theorem wbApply_exec (s1 : TomasuloSimulator) (grp : RSGroup) (ri p : Nat)
    (r : Int) (robA : Nat → ReorderBufferEntry) (errs : List String) :
    (wbApply s1 grp ri p r robA errs).executingInstructions =
      s1.executingInstructions := by
  unfold wbApply
  rw [updRS_exec]
  split <;> rfl

theorem wbApply_cycle (s1 : TomasuloSimulator) (grp : RSGroup) (ri p : Nat)
    (r : Int) (robA : Nat → ReorderBufferEntry) (errs : List String) :
    (wbApply s1 grp ri p r robA errs).cycle = s1.cycle := by
  unfold wbApply
  rw [updRS_cycle]
  split <;> rfl

theorem wbApply_next (s1 : TomasuloSimulator) (grp : RSGroup) (ri p : Nat)
    (r : Int) (robA : Nat → ReorderBufferEntry) (errs : List String) :
    (wbApply s1 grp ri p r robA errs).nextInstructionIndex =
      s1.nextInstructionIndex := by
  unfold wbApply
  rw [updRS_next]
  split <;> rfl

theorem wbApply_instructions (s1 : TomasuloSimulator) (grp : RSGroup) (ri p : Nat)
    (r : Int) (robA : Nat → ReorderBufferEntry) (errs : List String) :
    (wbApply s1 grp ri p r robA errs).instructions = s1.instructions := by
  unfold wbApply
  rw [updRS_instructions]
  split <;> rfl

theorem processWriteBack_exec (s : TomasuloSimulator) :
    (processWriteBack s).executingInstructions = s.executingInstructions := by
  simp only [processWriteBack]
  repeat first | rfl | rw [wbApply_exec] | split

theorem processWriteBack_cycle (s : TomasuloSimulator) :
    (processWriteBack s).cycle = s.cycle := by
  simp only [processWriteBack]
  repeat first | rfl | rw [wbApply_cycle] | split

theorem processWriteBack_next (s : TomasuloSimulator) :
    (processWriteBack s).nextInstructionIndex = s.nextInstructionIndex := by
  simp only [processWriteBack]
  repeat first | rfl | rw [wbApply_next] | split

theorem processWriteBack_instrLen (s : TomasuloSimulator) :
    (processWriteBack s).instructions.length = s.instructions.length := by
  simp only [processWriteBack]
  repeat
    first
      | rfl
      | (rw [wbApply_instructions]; simp [wbStamp, updAtI, length_updAt])
      | (simp only [wbStamp]; simp [updAtI, length_updAt])
      | split

theorem issueCore_exec (s : TomasuloSimulator) (grp : RSGroup) (ri : Nat) :
    (issueCore s grp ri).executingInstructions = s.executingInstructions := by
  cases grp <;> rfl

theorem issueCore_cycle (s : TomasuloSimulator) (grp : RSGroup) (ri : Nat) :
    (issueCore s grp ri).cycle = s.cycle := by
  cases grp <;> rfl

theorem issueCore_cdb (s : TomasuloSimulator) (grp : RSGroup) (ri : Nat) :
    (issueCore s grp ri).completedForCDB = s.completedForCDB := by
  cases grp <;> rfl

theorem issueCore_next (s : TomasuloSimulator) (grp : RSGroup) (ri : Nat) :
    (issueCore s grp ri).nextInstructionIndex = s.nextInstructionIndex + 1 := by
  cases grp <;> rfl

theorem issueCore_instructions (s : TomasuloSimulator) (grp : RSGroup) (ri : Nat) :
    (issueCore s grp ri).instructions =
      updAt s.instructions s.nextInstructionIndex
        (fun i0 => { i0 with issue := (s.cycle : Int) }) := by
  cases grp <;> rfl

theorem issueInstruction_exec (s : TomasuloSimulator) :
    (issueInstruction s).executingInstructions = s.executingInstructions := by
  simp only [issueInstruction]
  repeat first | rfl | rw [issueCore_exec] | split

theorem issueInstruction_cycle (s : TomasuloSimulator) :
    (issueInstruction s).cycle = s.cycle := by
  simp only [issueInstruction]
  repeat first | rfl | rw [issueCore_cycle] | split

theorem issueInstruction_cdb (s : TomasuloSimulator) :
    (issueInstruction s).completedForCDB = s.completedForCDB := by
  simp only [issueInstruction]
  repeat first | rfl | rw [issueCore_cdb] | split

theorem issueInstruction_next_ge (s : TomasuloSimulator) :
    s.nextInstructionIndex ≤ (issueInstruction s).nextInstructionIndex := by
  simp only [issueInstruction]
  split
  · exact le_refl _
  · split
    · exact le_refl _
    · rw [issueCore_next]; exact Nat.le_succ _

theorem issueInstruction_instrLen (s : TomasuloSimulator) :
    (issueInstruction s).instructions.length = s.instructions.length := by
  simp only [issueInstruction]
  split
  · rfl
  · split
    · rfl
    · rw [issueCore_instructions, length_updAt]

theorem startExecution_instructions (s : TomasuloSimulator) :
    (startExecution s).instructions = s.instructions := rfl

theorem startExecution_cycle (s : TomasuloSimulator) :
    (startExecution s).cycle = s.cycle := rfl

theorem startExecution_next (s : TomasuloSimulator) :
    (startExecution s).nextInstructionIndex = s.nextInstructionIndex := rfl

theorem startExecution_cdb (s : TomasuloSimulator) :
    (startExecution s).completedForCDB = s.completedForCDB := rfl

theorem startExecution_addRS (s : TomasuloSimulator) :
    (startExecution s).addRS = s.addRS := rfl

theorem startExecution_mulRS (s : TomasuloSimulator) :
    (startExecution s).mulRS = s.mulRS := rfl

theorem startExecution_loadRS (s : TomasuloSimulator) :
    (startExecution s).loadRS = s.loadRS := rfl

theorem startExecution_storeRS (s : TomasuloSimulator) :
    (startExecution s).storeRS = s.storeRS := rfl

theorem advanceExecution_cycle (s : TomasuloSimulator) :
    (advanceExecution s).cycle = s.cycle := rfl

theorem advanceExecution_next (s : TomasuloSimulator) :
    (advanceExecution s).nextInstructionIndex = s.nextInstructionIndex := rfl

theorem advanceExecution_rob (s : TomasuloSimulator) :
    (advanceExecution s).rob = s.rob := rfl

theorem advanceExecution_addRS (s : TomasuloSimulator) :
    (advanceExecution s).addRS = s.addRS := rfl

theorem advanceExecution_mulRS (s : TomasuloSimulator) :
    (advanceExecution s).mulRS = s.mulRS := rfl

theorem advanceExecution_loadRS (s : TomasuloSimulator) :
    (advanceExecution s).loadRS = s.loadRS := rfl

theorem advanceExecution_storeRS (s : TomasuloSimulator) :
    (advanceExecution s).storeRS = s.storeRS := rfl

/-! ### Claim theorems -/

/-- C1: every call of the step primitive runs the stages exactly once
each, in the order Commit, Write-Result, Issue, Execute-Start,
Execute-Advance, and then increments the cycle counter by one; a stage
whose precondition fails (empty CDB for Write-Result, empty ROB head
for Commit, no in-flight records for Execute-Advance) is still reached
but leaves the state unchanged. -/
theorem step_runs_stages_in_order (s : TomasuloSimulator) :
    stepSimulation s =
      { advanceExecution (startExecution (issueInstruction
          (processWriteBack (commitInstruction s)))) with
        cycle := s.cycle + 1 } ∧
    (s.completedForCDB = [] → processWriteBack s = s) ∧
    ((s.robEntriesAvailable = s.ROB_SIZE ∨ (s.rob s.robHead).busy = false) →
      commitInstruction s = s) ∧
    (s.executingInstructions = [] → advanceExecution s = s) := by
  refine ⟨?_, ?_, ?_, ?_⟩
  · have hc : (advanceExecution (startExecution (issueInstruction
        (processWriteBack (commitInstruction s))))).cycle = s.cycle := by
      rw [advanceExecution_cycle, startExecution_cycle, issueInstruction_cycle,
        processWriteBack_cycle, commitInstruction_cycle]
    show { advanceExecution (startExecution (issueInstruction
        (processWriteBack (commitInstruction s)))) with
      cycle := (advanceExecution (startExecution (issueInstruction
        (processWriteBack (commitInstruction s))))).cycle + 1 } = _
    rw [hc]
  · intro h
    unfold processWriteBack
    rw [h]
  · intro h
    unfold commitInstruction
    rw [if_pos]
    rcases h with h | h
    · exact Or.inl h
    · exact Or.inr (by rw [h]; exact Bool.false_ne_true)
  · intro h
    rcases s with ⟨i1, a1, m1, l1, s1, rb, rg, rs, me, cy, nx, rh, rt, ra, sz, ex, cd, er⟩
    have h2 : ex = [] := h
    subst h2
    rfl

/-- C1 witness: the stage-order equation at a concrete state. -/
theorem step_runs_stages_in_order_witness :
    stepSimulation wsOrphan =
      { advanceExecution (startExecution (issueInstruction
          (processWriteBack (commitInstruction wsOrphan)))) with
        cycle := wsOrphan.cycle + 1 } :=
  (step_runs_stages_in_order wsOrphan).1

/-- C6: when there is no next un-issued instruction, or the ROB has no
free slot, or no free reservation station exists in the matching group,
Issue changes nothing at all (the whole state, hence the ROB, every RS
group, the register-status table, the program counter and every stamp,
is unchanged). -/
theorem issue_structural_stall_noop (s : TomasuloSimulator)
    (h : s.nextInstructionIndex ≥ s.instructions.length ∨
         s.robEntriesAvailable = 0 ∨
         findFreeRS s (s.instructions.getD s.nextInstructionIndex {}).type = none) :
    issueInstruction s = s := by
  unfold issueInstruction
  rcases h with h | h | h
  · rw [if_pos (Or.inl h)]
  · rw [if_pos (Or.inr h)]
  · by_cases hg : s.nextInstructionIndex ≥ s.instructions.length ∨
        s.robEntriesAvailable = 0
    · rw [if_pos hg]
    · rw [if_neg hg, h]

/-- C6 witness: Issue stalls on a state with no instruction left. -/
theorem issue_structural_stall_noop_witness :
    (mkSimulator 3 2 3 3 16 []).nextInstructionIndex ≥
        (mkSimulator 3 2 3 3 16 []).instructions.length ∧
    issueInstruction (mkSimulator 3 2 3 3 16 []) = mkSimulator 3 2 3 3 16 [] :=
  ⟨by decide, issue_structural_stall_noop _ (Or.inl (by decide))⟩

/-- C4: committing a non-STORE head writes its value into
`registers[destinationRegister]` and clears the register-status entry
exactly when that entry is busy and still points at the head ROB index;
when a later Issue has retargeted the register (or the entry is free),
the entry is left unchanged. -/
theorem commit_nonstore_register_and_rename (s : TomasuloSimulator)
    (h1 : s.robEntriesAvailable ≠ s.ROB_SIZE)
    (h2 : (s.rob s.robHead).busy = true)
    (h3 : (s.rob s.robHead).state = ROB_WRITERESULT)
    (h4 : (s.rob s.robHead).type ≠ STORE) :
    (commitInstruction s).registers (s.rob s.robHead).destinationRegister
        = (s.rob s.robHead).value ∧
    ((s.regStatus (s.rob s.robHead).destinationRegister).busy = true ∧
        (s.regStatus (s.rob s.robHead).destinationRegister).robIndex
          = (s.robHead : Int) →
      (commitInstruction s).regStatus (s.rob s.robHead).destinationRegister
        = { busy := false, robIndex := -1 }) ∧
    (¬((s.regStatus (s.rob s.robHead).destinationRegister).busy = true ∧
        (s.regStatus (s.rob s.robHead).destinationRegister).robIndex
          = (s.robHead : Int)) →
      (commitInstruction s).regStatus (s.rob s.robHead).destinationRegister
        = s.regStatus (s.rob s.robHead).destinationRegister) := by
  have hg : ¬(s.robEntriesAvailable = s.ROB_SIZE ∨ ¬ (s.rob s.robHead).busy = true) :=
    not_or.mpr ⟨h1, not_not_intro h2⟩
  have hsb : ¬((s.rob s.robHead).type = STORE ∧ ¬ (s.rob s.robHead).valueReady = true) :=
    fun hc => h4 hc.1
  simp only [commitInstruction]
  rw [if_neg hg, if_pos h3, if_neg hsb, if_pos h4]
  dsimp only
  refine ⟨by rw [fUpd_eq], ?_, ?_⟩
  · intro hc
    rw [if_pos hc, fUpd_eq]
  · intro hc
    rw [if_neg hc]

/-- C4 witness: a completed ADD at the head with its rename entry still
pointing at the head. -/
theorem commit_nonstore_register_and_rename_witness :
    wsCommitAdd.robEntriesAvailable ≠ wsCommitAdd.ROB_SIZE ∧
    (wsCommitAdd.rob wsCommitAdd.robHead).busy = true ∧
    (wsCommitAdd.rob wsCommitAdd.robHead).state = ROB_WRITERESULT ∧
    (wsCommitAdd.rob wsCommitAdd.robHead).type ≠ STORE ∧
    ((commitInstruction wsCommitAdd).registers
        (wsCommitAdd.rob wsCommitAdd.robHead).destinationRegister
      = (wsCommitAdd.rob wsCommitAdd.robHead).value ∧
     ((wsCommitAdd.regStatus
          (wsCommitAdd.rob wsCommitAdd.robHead).destinationRegister).busy = true ∧
        (wsCommitAdd.regStatus
          (wsCommitAdd.rob wsCommitAdd.robHead).destinationRegister).robIndex
          = (wsCommitAdd.robHead : Int) →
      (commitInstruction wsCommitAdd).regStatus
          (wsCommitAdd.rob wsCommitAdd.robHead).destinationRegister
        = { busy := false, robIndex := -1 }) ∧
     (¬((wsCommitAdd.regStatus
          (wsCommitAdd.rob wsCommitAdd.robHead).destinationRegister).busy = true ∧
        (wsCommitAdd.regStatus
          (wsCommitAdd.rob wsCommitAdd.robHead).destinationRegister).robIndex
          = (wsCommitAdd.robHead : Int)) →
      (commitInstruction wsCommitAdd).regStatus
          (wsCommitAdd.rob wsCommitAdd.robHead).destinationRegister
        = wsCommitAdd.regStatus
            (wsCommitAdd.rob wsCommitAdd.robHead).destinationRegister)) :=
  ⟨by decide, by decide, by decide, by decide,
    commit_nonstore_register_and_rename wsCommitAdd (by decide) (by decide)
      (by decide) (by decide)⟩

/-- C7: committing a STORE head writes `value` to `memory[address]`
exactly when the address is in `[0, 1024)`; otherwise it emits a
diagnostic and touches no memory cell; in both cases the instruction
still commits: the commit stamp is set, the head entry is freed, the
head advances modulo ROB size and the free-entry count grows by one. -/
theorem commit_store_memory_guard (s : TomasuloSimulator)
    (h1 : s.robEntriesAvailable ≠ s.ROB_SIZE)
    (h2 : (s.rob s.robHead).busy = true)
    (h3 : (s.rob s.robHead).state = ROB_WRITERESULT)
    (h4 : (s.rob s.robHead).type = STORE)
    (h5 : (s.rob s.robHead).valueReady = true)
    (h6 : (s.rob s.robHead).instructionIndex.toNat < s.instructions.length) :
    (getInstr (commitInstruction s)
        (s.rob s.robHead).instructionIndex.toNat).commitCycle = (s.cycle : Int) ∧
    ((commitInstruction s).rob s.robHead).busy = false ∧
    ((commitInstruction s).rob s.robHead).state = ROB_EMPTY ∧
    (commitInstruction s).robHead = (s.robHead + 1) % s.ROB_SIZE ∧
    (commitInstruction s).robEntriesAvailable = s.robEntriesAvailable + 1 ∧
    (0 ≤ (s.rob s.robHead).address ∧ (s.rob s.robHead).address < 1024 →
      (commitInstruction s).memory (s.rob s.robHead).address
          = (s.rob s.robHead).value ∧
      (∀ a, a ≠ (s.rob s.robHead).address →
        (commitInstruction s).memory a = s.memory a) ∧
      (commitInstruction s).errlog = s.errlog) ∧
    (¬(0 ≤ (s.rob s.robHead).address ∧ (s.rob s.robHead).address < 1024) →
      (∀ a, (commitInstruction s).memory a = s.memory a) ∧
      (commitInstruction s).errlog
        = s.errlog ++ ["invalid STORE address at Commit"]) := by
  have hg : ¬(s.robEntriesAvailable = s.ROB_SIZE ∨ ¬ (s.rob s.robHead).busy = true) :=
    not_or.mpr ⟨h1, not_not_intro h2⟩
  have hsb : ¬((s.rob s.robHead).type = STORE ∧ ¬ (s.rob s.robHead).valueReady = true) :=
    fun hc => hc.2 (by rw [h5])
  have hns : ¬((s.rob s.robHead).type ≠ STORE) := fun hc => hc h4
  simp only [commitInstruction, getInstr]
  rw [if_neg hg, if_pos h3, if_neg hsb, if_neg hns]
  dsimp only
  refine ⟨?_, ?_, ?_, rfl, rfl, ?_, ?_⟩
  · unfold updAtI
    rw [getD_updAt_eq _ _ _ _ h6]
  · rw [robUpd_eq]
  · rw [robUpd_eq]
  · intro hin
    rw [if_pos hin]
    dsimp only
    refine ⟨by rw [fUpd_eq], fun a ha => by rw [fUpd_ne _ _ _ _ ha], rfl⟩
  · intro hin
    rw [if_neg hin]
    dsimp only
    exact ⟨fun a => rfl, rfl⟩

/-- C7 witness: a completed STORE at the head with in-range address. -/
theorem commit_store_memory_guard_witness :
    wsCommitStore.robEntriesAvailable ≠ wsCommitStore.ROB_SIZE ∧
    (wsCommitStore.rob wsCommitStore.robHead).busy = true ∧
    (wsCommitStore.rob wsCommitStore.robHead).state = ROB_WRITERESULT ∧
    (wsCommitStore.rob wsCommitStore.robHead).type = STORE ∧
    (wsCommitStore.rob wsCommitStore.robHead).valueReady = true ∧
    (wsCommitStore.rob wsCommitStore.robHead).instructionIndex.toNat
      < wsCommitStore.instructions.length ∧
    ((commitInstruction wsCommitStore).robEntriesAvailable
        = wsCommitStore.robEntriesAvailable + 1 ∧
      (commitInstruction wsCommitStore).memory
          (wsCommitStore.rob wsCommitStore.robHead).address
        = (wsCommitStore.rob wsCommitStore.robHead).value) := by
  have h := commit_store_memory_guard wsCommitStore (by decide) (by decide)
    (by decide) (by decide) (by decide) (by decide)
  exact ⟨by decide, by decide, by decide, by decide, by decide, by decide,
    h.2.2.2.2.1, (h.2.2.2.2.2.1 (by decide)).1⟩

/-- The missing-RS search of Write-Result comes back empty when no busy
station holds the popped instruction index. -/
theorem findRS4_none (s : TomasuloSimulator) (idx : Int)
    (hno : ∀ rs ∈ allRS s, rs.busy = true → rs.instructionIndex ≠ idx) :
    findRS4 s idx = none := by
  have hA : ∀ rs ∈ s.addRS, rs.busy = true → rs.instructionIndex ≠ idx :=
    fun rs h => hno rs (by simp [allRS, h])
  have hM : ∀ rs ∈ s.mulRS, rs.busy = true → rs.instructionIndex ≠ idx :=
    fun rs h => hno rs (by simp [allRS, h])
  have hL : ∀ rs ∈ s.loadRS, rs.busy = true → rs.instructionIndex ≠ idx :=
    fun rs h => hno rs (by simp [allRS, h])
  have hS : ∀ rs ∈ s.storeRS, rs.busy = true → rs.instructionIndex ≠ idx :=
    fun rs h => hno rs (by simp [allRS, h])
  unfold findRS4
  rw [findBusyIdx_none hA 0, findBusyIdx_none hM 0, findBusyIdx_none hL 0,
    findBusyIdx_none hS 0]

/-- C2 counterexample: a state whose CDB FIFO is non-empty while no busy
station holds the popped index; Write-Result nonetheless shortens the
FIFO, sets the `writeResult` stamp, and emits no diagnostic — so the
state does change and no diagnostic appears, contrary to the claim. -/
theorem writeback_missing_rs_changes_state :
    wsOrphan.completedForCDB ≠ [] ∧
    (∀ rs ∈ allRS wsOrphan, rs.busy = true → rs.instructionIndex ≠ (0 : Int)) ∧
    (processWriteBack wsOrphan).completedForCDB = [] ∧
    (getInstr wsOrphan 0).writeResult = -1 ∧
    (getInstr (processWriteBack wsOrphan) 0).writeResult = 0 ∧
    (processWriteBack wsOrphan).errlog = wsOrphan.errlog := by decide

/-- C2 amended: when the CDB FIFO is non-empty but no busy station in
any of the four groups holds the popped instruction index, Write-Result
pops the FIFO and stamps the instruction's `writeResult` with the
current cycle, then makes no further change — and emits no diagnostic
(the source's alert is commented out). -/
theorem writeback_missing_rs_pops_and_stamps (s : TomasuloSimulator)
    (idx : Int) (rest : List Int)
    (hq : s.completedForCDB = idx :: rest)
    (hno : ∀ rs ∈ allRS s, rs.busy = true → rs.instructionIndex ≠ idx) :
    processWriteBack s = wbStamp s idx rest ∧
    (processWriteBack s).errlog = s.errlog := by
  have heq : processWriteBack s = wbStamp s idx rest := by
    unfold processWriteBack
    rw [hq]
    show (match findRS4 s idx with
      | none => wbStamp s idx rest
      | some (grp, ri) => _) = wbStamp s idx rest
    rw [findRS4_none s idx hno]
  exact ⟨heq, by rw [heq]; rfl⟩

/-- C2 witness: the amended statement at the concrete orphan state. -/
theorem writeback_missing_rs_pops_and_stamps_witness :
    wsOrphan.completedForCDB = (0 : Int) :: [] ∧
    (∀ rs ∈ allRS wsOrphan, rs.busy = true → rs.instructionIndex ≠ (0 : Int)) ∧
    processWriteBack wsOrphan = wbStamp wsOrphan 0 [] :=
  ⟨rfl, by decide,
    (writeback_missing_rs_pops_and_stamps wsOrphan 0 [] rfl (by decide)).1⟩

set_option maxRecDepth 100000 in
/-- C3 counterexample: running the scenario-6 program
(`ADD F1,F2,F3` / `MUL F4,F1,F5` / `S.D F4,0(F0)`) to completion gives
`memory[10] = 200` and `F4 = 200` (= 20 × 10), not 30 as claimed. -/
theorem scenario6_not_thirty :
    isSimulationComplete fin6 ∧
    fin6.memory 10 = 200 ∧
    fin6.registers "F4" = 200 ∧
    ¬(fin6.memory 10 = 30) ∧
    ¬(fin6.registers "F4" = 30) := by decide

set_option maxRecDepth 100000 in
/-- C3 amended: the scenario-6 program terminates (done after 16
cycles) with `memory[10] = 200`, `F1 = 20`, `F4 = 200` (the `MUL`
multiplies 20 by 10), and the STORE does not commit before the MUL's
result has been forwarded into the STORE's ROB value at the MUL's
Write-Result cycle: the store's commit stamp is strictly later than the
MUL's writeResult stamp, and one cycle earlier the store had not yet
committed. -/
theorem scenario6_final_state :
    isSimulationComplete fin6 ∧
    fin6.memory 10 = 200 ∧
    fin6.registers "F1" = 20 ∧
    fin6.registers "F4" = 200 ∧
    (getInstr fin6 1).writeResult < (getInstr fin6 2).commitCycle ∧
    (getInstr (runN 15 init6) 2).commitCycle = -1 := by decide

/-- A successful `findFreeRS` returns an in-range station index. -/
theorem findFreeRS_lt (s : TomasuloSimulator) (t : InstructionType) (grp : RSGroup)
    (ri : Nat) (h : findFreeRS s t = some (grp, ri)) :
    ri < (rsGroup s grp).length := by
  unfold findFreeRS at h
  cases t <;> simp only [Option.map_eq_some'] at h <;>
    first
      | (obtain ⟨i, hi, he⟩ := h
         rw [Prod.mk.injEq] at he
         obtain ⟨rfl, rfl⟩ := he
         have := freeIdx_some hi
         simpa [rsGroup] using this.2)
      | exact absurd h (by simp)

/-- The station filled by a successful Issue is `issuedRS`. -/
theorem issueCore_getRS (s : TomasuloSimulator) (grp : RSGroup) (ri : Nat)
    (hlt : ri < (rsGroup s grp).length) :
    getRS (issueCore s grp ri) grp ri = issuedRS s grp ri := by
  have h1 : rsGroup (issueCore s grp ri) grp =
      updAt (rsGroup s grp) ri (fun _ => issuedRS s grp ri) := by
    cases grp <;> rfl
  unfold getRS
  rw [h1, getD_updAt_eq _ _ _ _ hlt]

/-- The three outcomes of `captureOperand`, read against the pre-state
ROB whenever the tag does not point at the freshly allocated slot. -/
theorem captureOperand_cases (s : TomasuloSimulator)
    (rob1 : Nat → ReorderBufferEntry) (src : String)
    (hagree : (s.regStatus src).busy = true →
      rob1 (s.regStatus src).robIndex.toNat = s.rob (s.regStatus src).robIndex.toNat) :
    ((s.regStatus src).busy = false →
      captureOperand s rob1 src = (some (s.registers src), none)) ∧
    ((s.regStatus src).busy = true →
      (((s.rob (s.regStatus src).robIndex.toNat).busy = true ∧
        (s.rob (s.regStatus src).robIndex.toNat).state = ROB_WRITERESULT ∧
        (s.rob (s.regStatus src).robIndex.toNat).valueReady = true) →
        captureOperand s rob1 src =
          (some (s.rob (s.regStatus src).robIndex.toNat).value, none)) ∧
      (¬((s.rob (s.regStatus src).robIndex.toNat).busy = true ∧
         (s.rob (s.regStatus src).robIndex.toNat).state = ROB_WRITERESULT ∧
         (s.rob (s.regStatus src).robIndex.toNat).valueReady = true) →
        captureOperand s rob1 src = (none, some (s.regStatus src).robIndex))) := by
  refine ⟨?_, fun hb => ⟨?_, ?_⟩⟩
  · intro hnb
    unfold captureOperand
    rw [if_neg (by rw [hnb]; exact Bool.false_ne_true)]
  · intro hready
    unfold captureOperand
    rw [if_pos hb]
    simp only [hagree hb]
    rw [if_pos hready]
  · intro hready
    unfold captureOperand
    rw [if_pos hb]
    simp only [hagree hb]
    rw [if_neg hready]

set_option maxHeartbeats 2000000 in
/-- C5: operand capture at Issue.  For each source register the
instruction reads (`src1` for every kind but LOAD, whose `src1` is a
literal offset, and `src2` for every supported kind): a free rename
entry copies the register file into V and clears Q; a busy rename
entry pointing at ROB slot `p` forwards `rob[p].value` into V and
clears Q exactly when `rob[p]` is busy, in state WroteResult and
value-ready, and otherwise sets Q to the tag of `p` (V not
meaningful).  The side conditions `hj`/`hk` say the rename entry does
not point at the tail slot being allocated this very cycle (true in
reachable states, where rename entries point at busy entries while the
tail slot was free). -/
theorem issue_operand_capture (s : TomasuloSimulator) (grp : RSGroup) (ri : Nat)
    (hlen : s.nextInstructionIndex < s.instructions.length)
    (havail : s.robEntriesAvailable ≠ 0)
    (hfind : findFreeRS s (s.instructions.getD s.nextInstructionIndex {}).type
      = some (grp, ri))
    (hj : (s.regStatus (s.instructions.getD s.nextInstructionIndex {}).src1).busy = true →
      (s.regStatus (s.instructions.getD s.nextInstructionIndex {}).src1).robIndex.toNat
        ≠ s.robTail)
    (hk : (s.regStatus (s.instructions.getD s.nextInstructionIndex {}).src2).busy = true →
      (s.regStatus (s.instructions.getD s.nextInstructionIndex {}).src2).robIndex.toNat
        ≠ s.robTail) :
    ((s.instructions.getD s.nextInstructionIndex {}).type ≠ LOAD →
     (s.instructions.getD s.nextInstructionIndex {}).src1 ≠ "" →
      captureProp s (s.instructions.getD s.nextInstructionIndex {}).src1
        (getRS (issueInstruction s) grp ri).Vj
        (getRS (issueInstruction s) grp ri).Qj) ∧
    ((s.instructions.getD s.nextInstructionIndex {}).type ≠ INVALID →
     (s.instructions.getD s.nextInstructionIndex {}).src2 ≠ "" →
      captureProp s (s.instructions.getD s.nextInstructionIndex {}).src2
        (getRS (issueInstruction s) grp ri).Vk
        (getRS (issueInstruction s) grp ri).Qk) := by
  have hg : ¬(s.nextInstructionIndex ≥ s.instructions.length ∨
      s.robEntriesAvailable = 0) :=
    not_or.mpr ⟨not_le.mpr hlen, havail⟩
  have hstep : issueInstruction s = issueCore s grp ri := by
    unfold issueInstruction
    rw [if_neg hg, hfind]
  have hlt : ri < (rsGroup s grp).length := findFreeRS_lt s _ grp ri hfind
  have hrs : getRS (issueInstruction s) grp ri = issuedRS s grp ri := by
    rw [hstep]; exact issueCore_getRS s grp ri hlt
  rw [hrs]
  have hcap1 := captureOperand_cases s (issueRobAlloc s)
    (s.instructions.getD s.nextInstructionIndex {}).src1
    (fun hb => by unfold issueRobAlloc; exact robUpd_ne _ _ _ _ (hj hb))
  have hcap2 := captureOperand_cases s (issueRobAlloc s)
    (s.instructions.getD s.nextInstructionIndex {}).src2
    (fun hb => by unfold issueRobAlloc; exact robUpd_ne _ _ _ _ (hk hb))
  constructor
  · intro hNL hs1
    refine ⟨?_, fun hb => ⟨?_, ?_⟩⟩
    · intro hnb
      simp only [issuedRS]
      rw [if_neg hNL, if_pos hs1, hcap1.1 hnb]
      dsimp only
      constructor <;> (repeat' split) <;> rfl
    · intro hready
      simp only [issuedRS]
      rw [if_neg hNL, if_pos hs1, (hcap1.2 hb).1 hready]
      dsimp only
      constructor <;> (repeat' split) <;> rfl
    · intro hready
      simp only [issuedRS]
      rw [if_neg hNL, if_pos hs1, (hcap1.2 hb).2 hready]
      dsimp only
      (repeat' split) <;> rfl
  · intro hNI hs2
    have hsix : (s.instructions.getD s.nextInstructionIndex {}).type = ADD ∨
        (s.instructions.getD s.nextInstructionIndex {}).type = SUB ∨
        (s.instructions.getD s.nextInstructionIndex {}).type = MUL ∨
        (s.instructions.getD s.nextInstructionIndex {}).type = DIV ∨
        (s.instructions.getD s.nextInstructionIndex {}).type = LOAD ∨
        (s.instructions.getD s.nextInstructionIndex {}).type = STORE := by
      cases h1 : (s.instructions.getD s.nextInstructionIndex {}).type <;>
        simp_all
    refine ⟨?_, fun hb => ⟨?_, ?_⟩⟩
    · intro hnb
      simp only [issuedRS]
      rw [if_pos hsix, if_pos hs2, hcap2.1 hnb]
      dsimp only
      constructor <;> (repeat' split) <;> rfl
    · intro hready
      simp only [issuedRS]
      rw [if_pos hsix, if_pos hs2, (hcap2.2 hb).1 hready]
      dsimp only
      constructor <;> (repeat' split) <;> rfl
    · intro hready
      simp only [issuedRS]
      rw [if_pos hsix, if_pos hs2, (hcap2.2 hb).2 hready]
      dsimp only
      (repeat' split) <;> rfl

/-- C5 witness: issuing `ADD F1,F2,F3` from the initial state captures
both operands. -/
theorem issue_operand_capture_witness :
    wsIssue.nextInstructionIndex < wsIssue.instructions.length ∧
    wsIssue.robEntriesAvailable ≠ 0 ∧
    findFreeRS wsIssue (wsIssue.instructions.getD wsIssue.nextInstructionIndex {}).type
      = some (ADDg, 0) ∧
    (((wsIssue.instructions.getD wsIssue.nextInstructionIndex {}).type ≠ LOAD →
      (wsIssue.instructions.getD wsIssue.nextInstructionIndex {}).src1 ≠ "" →
       captureProp wsIssue (wsIssue.instructions.getD wsIssue.nextInstructionIndex {}).src1
         (getRS (issueInstruction wsIssue) ADDg 0).Vj
         (getRS (issueInstruction wsIssue) ADDg 0).Qj) ∧
     ((wsIssue.instructions.getD wsIssue.nextInstructionIndex {}).type ≠ INVALID →
      (wsIssue.instructions.getD wsIssue.nextInstructionIndex {}).src2 ≠ "" →
       captureProp wsIssue (wsIssue.instructions.getD wsIssue.nextInstructionIndex {}).src2
         (getRS (issueInstruction wsIssue) ADDg 0).Vk
         (getRS (issueInstruction wsIssue) ADDg 0).Qk)) :=
  ⟨by decide, by decide, by decide,
    issue_operand_capture wsIssue ADDg 0 (by decide) (by decide) (by decide)
      (by decide) (by decide)⟩

/-! ### The STORE Write-Result data invariant (C9) -/

theorem ROBok_of_not_busy {e : ReorderBufferEntry} (h : e.busy = false) : ROBok e := by
  intro hb
  rw [h] at hb
  exact absurd hb (by simp)

theorem ROBok_of_not_wr {e : ReorderBufferEntry} (h : e.state ≠ ROB_WRITERESULT) :
    ROBok e :=
  fun _ hs => absurd hs h

theorem ROBok_of_ready {e : ReorderBufferEntry} (h : e.valueReady = true) : ROBok e :=
  fun _ _ _ => h

theorem ROBok_set_exec (e : ReorderBufferEntry) : ROBok { e with state := ROB_EXECUTE } :=
  fun _ hs => absurd hs (by simp)

theorem ROBok_robUpd {r : Nat → ReorderBufferEntry} {i : Nat}
    {f : ReorderBufferEntry → ReorderBufferEntry}
    (h : ∀ j, ROBok (r j)) (hf : ROBok (f (r i))) : ∀ j, ROBok (robUpd r i f j) := by
  intro j
  unfold robUpd
  split
  · rename_i hji
    rw [hji]
    exact hf
  · exact h j

theorem StoreWrInv_commit (s : TomasuloSimulator) (h : StoreWrInv s) :
    StoreWrInv (commitInstruction s) := by
  intro i
  simp only [commitInstruction]
  split
  · exact h i
  · split
    · split
      · exact h i
      · dsimp only
        exact ROBok_robUpd h (by intro hb; exact absurd hb (by simp)) i
    · exact h i

theorem StoreWrInv_issueCore (s : TomasuloSimulator) (grp : RSGroup) (ri : Nat)
    (h : StoreWrInv s) : StoreWrInv (issueCore s grp ri) := by
  have hr : (issueCore s grp ri).rob =
      (if (s.instructions.getD s.nextInstructionIndex {}).type = STORE then
        if (issuedRS s grp ri).Qj = none then
          robUpd (issueRobAlloc s) s.robTail
            (fun e => { e with value := (issuedRS s grp ri).Vj, valueReady := true })
        else issueRobAlloc s
      else issueRobAlloc s) := by
    cases grp <;> rfl
  have halloc : ∀ j, ROBok (issueRobAlloc s j) := by
    unfold issueRobAlloc
    exact ROBok_robUpd h (ROBok_of_not_wr (by simp [issueRobEntry]))
  intro i
  rw [hr]
  split
  · split
    · exact ROBok_robUpd halloc (ROBok_of_ready rfl) i
    · exact halloc i
  · exact halloc i

theorem StoreWrInv_issue (s : TomasuloSimulator) (h : StoreWrInv s) :
    StoreWrInv (issueInstruction s) := by
  unfold issueInstruction
  split
  · exact h
  · split
    · exact h
    · exact StoreWrInv_issueCore s _ _ h

theorem bcastRS_rob_ok (p : Nat) (v : Int) (rob : Nat → ReorderBufferEntry)
    (rs : ReservationStation) (h : ∀ j, ROBok (rob j)) :
    ∀ j, ROBok ((bcastRS p v rob rs).2 j) := by
  unfold bcastRS
  split
  · dsimp only
    split
    · split
      · split
        · exact ROBok_robUpd h (ROBok_of_ready rfl)
        · exact h
      · exact h
    · exact h
  · exact h

theorem bcastGroup_rob_ok (p : Nat) (v : Int) :
    ∀ (l : List ReservationStation) (rob : Nat → ReorderBufferEntry),
      (∀ j, ROBok (rob j)) → ∀ j, ROBok ((bcastGroup p v l rob).2 j) := by
  intro l
  induction l with
  | nil => intro rob h j; exact h j
  | cons rs rest ih =>
    intro rob h j
    exact ih _ (bcastRS_rob_ok p v rob rs h) j

theorem StoreWrInv_updateDependentRS (s : TomasuloSimulator) (p : Nat) (v : Int)
    (h : StoreWrInv s) : StoreWrInv (updateDependentRS s p v) := by
  intro i
  unfold updateDependentRS
  exact bcastGroup_rob_ok p v _ _
    (bcastGroup_rob_ok p v _ _
      (bcastGroup_rob_ok p v _ _
        (bcastGroup_rob_ok p v _ _ h) )) i

theorem wbCompute_rob_ok (s : TomasuloSimulator) (inst : Instruction)
    (rs : ReservationStation) (p : Nat) (h : StoreWrInv s)
    (r : Int) (robA : Nat → ReorderBufferEntry) (e : List String)
    (hc : wbCompute s inst rs p = some (r, robA, e)) : ∀ j, ROBok (robA j) := by
  have haddr : ∀ (a : Int), ∀ j,
      ROBok (robUpd s.rob p (fun x => { x with address := a }) j) := by
    intro a
    apply ROBok_robUpd h
    intro hb hs ht
    exact h p hb hs ht
  cases ht : inst.type <;>
    simp only [wbCompute, ht, Option.some.injEq, Prod.mk.injEq] at hc
  case ADD => exact hc.2.1 ▸ h
  case SUB => exact hc.2.1 ▸ h
  case MUL => exact hc.2.1 ▸ h
  case DIV =>
    split at hc <;> simp only [Option.some.injEq, Prod.mk.injEq] at hc <;>
      exact hc.2.1 ▸ h
  case LOAD => exact hc.2.1 ▸ haddr _
  case STORE => exact hc.2.1 ▸ haddr _
  case INVALID => exact absurd hc (by simp)

theorem StoreWrInv_wbApply (s1 : TomasuloSimulator) (grp : RSGroup) (ri p : Nat)
    (r : Int) (robA : Nat → ReorderBufferEntry) (errs : List String)
    (hA : ∀ j, ROBok (robA j)) :
    ∀ j, ROBok ((wbApply s1 grp ri p r robA errs).rob j) := by
  intro j
  unfold wbApply
  rw [updRS_rob]
  split
  · have hB : ∀ j2, ROBok (robUpd robA p (fun x =>
        { x with value := r, valueReady := true, state := ROB_WRITERESULT }) j2) := by
      apply ROBok_robUpd hA
      exact ROBok_of_ready rfl
    exact StoreWrInv_updateDependentRS
      { s1 with
        rob := robUpd robA p (fun x =>
          { x with value := r, valueReady := true, state := ROB_WRITERESULT })
        errlog := errs } p r hB j
  · exact hA j

theorem StoreWrInv_wb (s : TomasuloSimulator) (h : StoreWrInv s) :
    StoreWrInv (processWriteBack s) := by
  simp only [processWriteBack]
  split
  · exact h
  · split
    · exact h
    · split
      · exact h
      · split
        · exact h
        · rename_i heq
          exact StoreWrInv_wbApply _ _ _ _ _ _ _
            (wbCompute_rob_ok s _ _ _ h _ _ _ heq)

theorem startGo_rob_ok :
    ∀ (entries : List (RSGroup × Nat × ReservationStation))
      (rob : Nat → ReorderBufferEntry) (ex : List ExecutingInstruction),
      (∀ j, ROBok (rob j)) → ∀ j, ROBok ((startGo entries rob ex).1 j) := by
  intro entries
  induction entries with
  | nil => intro rob ex h j; exact h j
  | cons t rest ih =>
    intro rob ex h j
    obtain ⟨grp, i, rs⟩ := t
    simp only [startGo]
    split
    · apply ih
      intro j2
      split <;> split <;>
        first
          | exact h j2
          | exact ROBok_robUpd h (ROBok_set_exec _) j2
          | exact ROBok_robUpd h (ROBok_of_ready rfl) j2
          | exact ROBok_robUpd
              (ROBok_robUpd h (ROBok_set_exec _))
              (ROBok_of_ready rfl) j2
    · exact ih rob ex h j

theorem StoreWrInv_start (s : TomasuloSimulator) (h : StoreWrInv s) :
    StoreWrInv (startExecution s) := by
  intro i
  unfold startExecution
  exact startGo_rob_ok (startEntries s) s.rob s.executingInstructions h i

theorem StoreWrInv_step (s : TomasuloSimulator) (h : StoreWrInv s) :
    StoreWrInv (stepSimulation s) :=
  fun i =>
    StoreWrInv_start _ (StoreWrInv_issue _ (StoreWrInv_wb _ (StoreWrInv_commit s h))) i

/-- C9: in every reachable state, every busy ROB entry of kind STORE in
state WroteResult has `valueReady`, and consequently the Commit guard
that refuses a value-pending STORE head is never taken. -/
theorem store_wroteresult_value_ready (a b c d r : Nat) (prog : List Instruction)
    (s : TomasuloSimulator) (h : Reachable (mkSimulator a b c d r prog) s) :
    StoreWrInv s ∧
    ¬((s.rob s.robHead).busy = true ∧
      (s.rob s.robHead).state = ROB_WRITERESULT ∧
      (s.rob s.robHead).type = STORE ∧
      ¬(s.rob s.robHead).valueReady = true) := by
  have inv : StoreWrInv s := by
    induction h with
    | refl => exact fun i => ROBok_of_not_busy rfl
    | step _ ih => exact StoreWrInv_step _ ih
  exact ⟨inv, fun hc => hc.2.2.2 (inv s.robHead hc.1 hc.2.1 hc.2.2.1)⟩

/-- C9 witness: the invariant and guard statement at the initial state
of the scenario-6 program. -/
theorem store_wroteresult_value_ready_witness :
    StoreWrInv init6 ∧
    ¬((init6.rob init6.robHead).busy = true ∧
      (init6.rob init6.robHead).state = ROB_WRITERESULT ∧
      (init6.rob init6.robHead).type = STORE ∧
      ¬(init6.rob init6.robHead).valueReady = true) :=
  store_wroteresult_value_ready 3 2 3 3 16 prog6 init6 Reachable.refl

/-! ### Tracking one in-flight record (C10) -/

theorem advanceGo_no_m (cyc : Int) (m : Nat) :
    ∀ (l : List ExecutingInstruction) (instrs : List Instruction) (cdb : List Int),
      l.countP (fun e => e.instructionIndex.toNat == m) = 0 →
      (advanceGo cyc l instrs cdb).2.1.getD m {} = instrs.getD m {} ∧
      (advanceGo cyc l instrs cdb).1.countP
        (fun e => e.instructionIndex.toNat == m) = 0 ∧
      (advanceGo cyc l instrs cdb).2.1.length = instrs.length := by
  intro l
  induction l with
  | nil => intro instrs cdb _; exact ⟨rfl, rfl, rfl⟩
  | cons e rest ih =>
    intro instrs cdb h
    rw [List.countP_cons] at h
    by_cases hp : (e.instructionIndex.toNat == m) = true
    · simp [hp] at h
    · simp only [hp, if_false, Nat.add_zero] at h
      have hne : e.instructionIndex.toNat ≠ m := by simpa using hp
      simp only [advanceGo]
      split
      · have hrec := ih (updAtI instrs e.instructionIndex
          (fun i0 => { i0 with execComp := cyc })) (cdb ++ [e.instructionIndex]) h
        refine ⟨?_, hrec.2.1, ?_⟩
        · rw [hrec.1]
          unfold updAtI
          exact getD_updAt_ne _ _ _ _ _ (Ne.symm hne)
        · rw [hrec.2.2]
          unfold updAtI
          exact length_updAt _ _ _
      · have hrec := ih instrs cdb h
        refine ⟨hrec.1, ?_, hrec.2.2⟩
        rw [List.countP_cons]
        simp only [hrec.2.1, Nat.zero_add]
        simp [hp]

theorem advanceGo_track (cyc : Int) (m : Nat) :
    ∀ (l : List ExecutingInstruction) (instrs : List Instruction) (cdb : List Int)
      (r : Int),
      l.countP (fun e => e.instructionIndex.toNat == m) = 1 →
      (∀ e ∈ l, e.instructionIndex.toNat = m → e.remainingCycles = r) →
      m < instrs.length →
      ((r ≤ 1 →
          (advanceGo cyc l instrs cdb).2.1.getD m {}
            = { instrs.getD m {} with execComp := cyc }) ∧
       (2 ≤ r →
          (advanceGo cyc l instrs cdb).2.1.getD m {} = instrs.getD m {} ∧
          (advanceGo cyc l instrs cdb).1.countP
            (fun e => e.instructionIndex.toNat == m) = 1 ∧
          (∀ e ∈ (advanceGo cyc l instrs cdb).1,
            e.instructionIndex.toNat = m → e.remainingCycles = r - 1) ∧
          (advanceGo cyc l instrs cdb).2.1.length = instrs.length)) := by
  intro l
  induction l with
  | nil => intro instrs cdb r h1 _ _; simp at h1
  | cons e rest ih =>
    intro instrs cdb r h1 h2 hm
    rw [List.countP_cons] at h1
    by_cases hp : (e.instructionIndex.toNat == m) = true
    · -- the head is the tracked record
      have hem : e.instructionIndex.toNat = m := by simpa using hp
      have hrc : e.remainingCycles = r := h2 e (List.mem_cons_self _ _) hem
      simp only [hp, if_true] at h1
      have hz : rest.countP (fun e => e.instructionIndex.toNat == m) = 0 := by omega
      simp only [advanceGo]
      constructor
      · -- r ≤ 1 : the head completes and stamps instruction m
        intro hr1
        rw [if_pos (by rw [hrc]; omega : e.remainingCycles - 1 ≤ 0)]
        have hrec := advanceGo_no_m cyc m rest
          (updAtI instrs e.instructionIndex (fun i0 => { i0 with execComp := cyc }))
          (cdb ++ [e.instructionIndex]) hz
        rw [hrec.1]
        unfold updAtI
        rw [hem, getD_updAt_eq _ _ _ _ hm]
      · -- 2 ≤ r : the head survives with one fewer cycle
        intro hr2
        rw [if_neg (by rw [hrc]; omega : ¬ e.remainingCycles - 1 ≤ 0)]
        have hrec := advanceGo_no_m cyc m rest instrs cdb hz
        refine ⟨hrec.1, ?_, ?_, hrec.2.2⟩
        · rw [List.countP_cons]
          simp only [hrec.2.1, Nat.zero_add]
          simp [hp]
        · intro e2 he2
          rcases List.mem_cons.mp he2 with he2 | he2
          · intro _
            rw [he2, hrc]
          · intro hem2
            have := List.countP_eq_zero.mp hrec.2.1 e2 he2
            exact absurd (by simpa using hem2) this
    · -- the head is a different record
      have hne : e.instructionIndex.toNat ≠ m := by simpa using hp
      simp only [hp, if_false, Nat.add_zero] at h1
      have h2' : ∀ e2 ∈ rest, e2.instructionIndex.toNat = m → e2.remainingCycles = r :=
        fun e2 he2 => h2 e2 (List.mem_cons_of_mem _ he2)
      simp only [advanceGo]
      split
      · have hrec := ih (updAtI instrs e.instructionIndex
            (fun i0 => { i0 with execComp := cyc })) (cdb ++ [e.instructionIndex]) r h1 h2'
          (by unfold updAtI; rw [length_updAt]; exact hm)
        constructor
        · intro hr1
          rw [(hrec.1 hr1)]
          unfold updAtI
          rw [getD_updAt_ne _ _ _ _ _ (Ne.symm hne)]
        · intro hr2
          obtain ⟨ha, hb, hc, hd⟩ := hrec.2 hr2
          refine ⟨?_, hb, hc, ?_⟩
          · rw [ha]
            unfold updAtI
            exact getD_updAt_ne _ _ _ _ _ (Ne.symm hne)
          · rw [hd]
            unfold updAtI
            exact length_updAt _ _ _
      · have hrec := ih instrs cdb r h1 h2' hm
        constructor
        · intro hr1
          exact hrec.1 hr1
        · intro hr2
          obtain ⟨ha, hb, hc, hd⟩ := hrec.2 hr2
          refine ⟨ha, ?_, ?_, hd⟩
          · rw [List.countP_cons]
            simp only [hb]
            simp [hp]
          · intro e2 he2
            rcases List.mem_cons.mp he2 with he2 | he2
            · intro hem2
              rw [he2] at hem2
              exact absurd (by simpa using hem2) hne
            · exact hc e2 he2

theorem advanceGo_sub (cyc : Int) :
    ∀ (l : List ExecutingInstruction) (instrs : List Instruction) (cdb : List Int),
      ∀ e2 ∈ (advanceGo cyc l instrs cdb).1, ∃ e ∈ l,
        e2.rsType = e.rsType ∧ e2.rsIndex = e.rsIndex ∧
        e2.instructionIndex = e.instructionIndex := by
  intro l
  induction l with
  | nil => intro instrs cdb e2 h2; simp [advanceGo] at h2
  | cons e rest ih =>
    intro instrs cdb e2 h2
    simp only [advanceGo] at h2
    split at h2
    · obtain ⟨e3, he3, h⟩ := ih _ _ e2 h2
      exact ⟨e3, List.mem_cons_of_mem _ he3, h⟩
    · rcases List.mem_cons.mp h2 with h3 | h3
      · refine ⟨e, List.mem_cons_self _ _, ?_, ?_, ?_⟩ <;> rw [h3]
      · obtain ⟨e3, he3, h⟩ := ih _ _ e2 h3
        exact ⟨e3, List.mem_cons_of_mem _ he3, h⟩

theorem bcastRS_fst_busy (p : Nat) (v : Int) (rob : Nat → ReorderBufferEntry)
    (rs : ReservationStation) : (bcastRS p v rob rs).1.busy = rs.busy := by
  simp only [bcastRS]
  repeat first | rfl | split

theorem bcastRS_fst_idx (p : Nat) (v : Int) (rob : Nat → ReorderBufferEntry)
    (rs : ReservationStation) :
    (bcastRS p v rob rs).1.instructionIndex = rs.instructionIndex := by
  simp only [bcastRS]
  repeat first | rfl | split

theorem bcastGroup_length (p : Nat) (v : Int) :
    ∀ (l : List ReservationStation) (rob : Nat → ReorderBufferEntry),
      ((bcastGroup p v l rob).1).length = l.length := by
  intro l
  induction l with
  | nil => intro rob; rfl
  | cons rs rest ih =>
    intro rob
    simp only [bcastGroup, List.length_cons]
    rw [ih]

theorem bcastGroup_getD (p : Nat) (v : Int) :
    ∀ (l : List ReservationStation) (rob : Nat → ReorderBufferEntry) (i : Nat),
      (((bcastGroup p v l rob).1).getD i ({} : ReservationStation)).busy
          = (l.getD i ({} : ReservationStation)).busy ∧
      (((bcastGroup p v l rob).1).getD i ({} : ReservationStation)).instructionIndex
          = (l.getD i ({} : ReservationStation)).instructionIndex := by
  intro l
  induction l with
  | nil => intro rob i; exact ⟨rfl, rfl⟩
  | cons rs rest ih =>
    intro rob i
    cases i with
    | zero =>
      constructor
      · show ((bcastRS p v rob rs).1).busy = rs.busy
        exact bcastRS_fst_busy p v rob rs
      · show ((bcastRS p v rob rs).1).instructionIndex = rs.instructionIndex
        exact bcastRS_fst_idx p v rob rs
    | succ j =>
      exact ih ((bcastRS p v rob rs).2) j

theorem enumFrom_getD {α : Type} (d : α) :
    ∀ (l : List α) (k i : Nat) (a : α), (i, a) ∈ enumFrom k l →
      k ≤ i ∧ i - k < l.length ∧ l.getD (i - k) d = a := by
  intro l
  induction l with
  | nil => intro k i a h; simp [enumFrom] at h
  | cons x t ih =>
    intro k i a h
    simp only [enumFrom] at h
    rcases List.mem_cons.mp h with h | h
    · injection h with h1 h2
      subst h1
      subst h2
      refine ⟨le_refl _, by simp, ?_⟩
      simp [Nat.sub_self]
    · obtain ⟨hk, hlt, hg⟩ := ih (k + 1) i a h
      refine ⟨by omega, by rw [List.length_cons]; omega, ?_⟩
      have he : i - k = (i - (k + 1)) + 1 := by omega
      rw [he, List.getD_cons_succ]
      exact hg

theorem mem_startEntries_getRS (s : TomasuloSimulator) {g : RSGroup} {i : Nat}
    {rs : ReservationStation} (h : (g, i, rs) ∈ startEntries s) :
    i < (rsGroup s g).length ∧ getRS s g i = rs := by
  simp only [startEntries, List.mem_append, List.mem_map] at h
  rcases h with ((⟨p, hp, he⟩ | ⟨p, hp, he⟩) | ⟨p, hp, he⟩) | ⟨p, hp, he⟩ <;>
    (obtain ⟨pi, pa⟩ := p
     injection he with he1 he23
     injection he23 with he2 he3
     subst he1
     subst he2
     subst he3
     obtain ⟨hk, hlt, hg⟩ := enumFrom_getD ({} : ReservationStation) _ 0 _ _ hp
     simp only [Nat.sub_zero] at hlt hg
     exact ⟨hlt, hg⟩)

theorem rsGroup_setRSGroup (s : TomasuloSimulator) (g' g : RSGroup)
    (l : List ReservationStation) :
    rsGroup (setRSGroup s g' l) g = if g = g' then l else rsGroup s g := by
  cases g' <;> cases g <;> rfl

theorem rsGroup_updRS (s : TomasuloSimulator) (g' : RSGroup) (i' : Nat)
    (f : ReservationStation → ReservationStation) (g : RSGroup) :
    rsGroup (updRS s g' i' f) g
      = if g = g' then updAt (rsGroup s g') i' f else rsGroup s g :=
  rsGroup_setRSGroup s g' g _

theorem rsGroup_issueCore (s : TomasuloSimulator) (grp : RSGroup) (ri : Nat)
    (g : RSGroup) :
    rsGroup (issueCore s grp ri) g
      = if g = grp then updAt (rsGroup s grp) ri (fun _ => issuedRS s grp ri)
        else rsGroup s g := by
  cases grp <;> cases g <;> rfl

theorem RSkeySafe_groups {s' s : TomasuloSimulator} {m : Nat} {g0 : RSGroup}
    {i0 : Nat} (hA : s'.addRS = s.addRS) (hM : s'.mulRS = s.mulRS)
    (hL : s'.loadRS = s.loadRS) (hS : s'.storeRS = s.storeRS)
    (h : RSkeySafe s m g0 i0) : RSkeySafe s' m g0 i0 := by
  have hg : ∀ g, rsGroup s' g = rsGroup s g := by
    intro g
    cases g
    · exact hA
    · exact hM
    · exact hL
    · exact hS
  intro g i hlen hb hidx
  have hlen' : i < (rsGroup s g).length := by rw [← hg g]; exact hlen
  have hb' : (getRS s g i).busy = true := by
    show ((rsGroup s g).getD i {}).busy = true
    rw [← hg g]
    exact hb
  have hidx' : (getRS s g i).instructionIndex.toNat = m := by
    show ((rsGroup s g).getD i {}).instructionIndex.toNat = m
    rw [← hg g]
    exact hidx
  exact h g i hlen' hb' hidx'

theorem RSkeySafe_updateDependentRS (s : TomasuloSimulator) (p : Nat) (v : Int)
    {m : Nat} {g0 : RSGroup} {i0 : Nat} (h : RSkeySafe s m g0 i0) :
    RSkeySafe (updateDependentRS s p v) m g0 i0 := by
  intro g i hlen hb hidx
  cases g with
  | ADDg =>
    have hlen' : i < ((bcastGroup p v s.addRS s.rob).1).length := hlen
    rw [bcastGroup_length] at hlen'
    have hb' : (((bcastGroup p v s.addRS s.rob).1).getD i {}).busy = true := hb
    rw [(bcastGroup_getD p v s.addRS s.rob i).1] at hb'
    have hidx' :
        (((bcastGroup p v s.addRS s.rob).1).getD i {}).instructionIndex.toNat = m := hidx
    rw [(bcastGroup_getD p v s.addRS s.rob i).2] at hidx'
    exact h ADDg i hlen' hb' hidx'
  | MULg =>
    have hlen' : i < ((bcastGroup p v s.mulRS
        (bcastGroup p v s.addRS s.rob).2).1).length := hlen
    rw [bcastGroup_length] at hlen'
    have hb' : (((bcastGroup p v s.mulRS
        (bcastGroup p v s.addRS s.rob).2).1).getD i {}).busy = true := hb
    rw [(bcastGroup_getD p v s.mulRS (bcastGroup p v s.addRS s.rob).2 i).1] at hb'
    have hidx' : (((bcastGroup p v s.mulRS
        (bcastGroup p v s.addRS s.rob).2).1).getD i {}).instructionIndex.toNat = m := hidx
    rw [(bcastGroup_getD p v s.mulRS (bcastGroup p v s.addRS s.rob).2 i).2] at hidx'
    exact h MULg i hlen' hb' hidx'
  | LOADg =>
    have hlen' : i < ((bcastGroup p v s.loadRS
        (bcastGroup p v s.mulRS (bcastGroup p v s.addRS s.rob).2).2).1).length := hlen
    rw [bcastGroup_length] at hlen'
    have hb' : (((bcastGroup p v s.loadRS
        (bcastGroup p v s.mulRS (bcastGroup p v s.addRS s.rob).2).2).1).getD i
          {}).busy = true := hb
    rw [(bcastGroup_getD p v s.loadRS
      (bcastGroup p v s.mulRS (bcastGroup p v s.addRS s.rob).2).2 i).1] at hb'
    have hidx' : (((bcastGroup p v s.loadRS
        (bcastGroup p v s.mulRS (bcastGroup p v s.addRS s.rob).2).2).1).getD i
          {}).instructionIndex.toNat = m := hidx
    rw [(bcastGroup_getD p v s.loadRS
      (bcastGroup p v s.mulRS (bcastGroup p v s.addRS s.rob).2).2 i).2] at hidx'
    exact h LOADg i hlen' hb' hidx'
  | STOREg =>
    have hlen' : i < ((bcastGroup p v s.storeRS
        (bcastGroup p v s.loadRS
          (bcastGroup p v s.mulRS (bcastGroup p v s.addRS s.rob).2).2).2).1).length := hlen
    rw [bcastGroup_length] at hlen'
    have hb' : (((bcastGroup p v s.storeRS
        (bcastGroup p v s.loadRS
          (bcastGroup p v s.mulRS (bcastGroup p v s.addRS s.rob).2).2).2).1).getD i
            {}).busy = true := hb
    rw [(bcastGroup_getD p v s.storeRS
      (bcastGroup p v s.loadRS
        (bcastGroup p v s.mulRS (bcastGroup p v s.addRS s.rob).2).2).2 i).1] at hb'
    have hidx' : (((bcastGroup p v s.storeRS
        (bcastGroup p v s.loadRS
          (bcastGroup p v s.mulRS (bcastGroup p v s.addRS s.rob).2).2).2).1).getD i
            {}).instructionIndex.toNat = m := hidx
    rw [(bcastGroup_getD p v s.storeRS
      (bcastGroup p v s.loadRS
        (bcastGroup p v s.mulRS (bcastGroup p v s.addRS s.rob).2).2).2 i).2] at hidx'
    exact h STOREg i hlen' hb' hidx'

theorem RSkeySafe_updRS_release (s : TomasuloSimulator) (g' : RSGroup) (i' : Nat)
    {m : Nat} {g0 : RSGroup} {i0 : Nat} (h : RSkeySafe s m g0 i0) :
    RSkeySafe (updRS s g' i' releaseRS) m g0 i0 := by
  intro g i hlen hb hidx
  have hlen' := hlen
  rw [rsGroup_updRS] at hlen'
  have hb' : ((rsGroup (updRS s g' i' releaseRS) g).getD i {}).busy = true := hb
  have hidx' :
      ((rsGroup (updRS s g' i' releaseRS) g).getD i {}).instructionIndex.toNat = m := hidx
  rw [rsGroup_updRS] at hb' hidx'
  by_cases hg : g = g'
  · subst hg
    rw [if_pos rfl] at hlen' hb' hidx'
    rw [length_updAt] at hlen'
    by_cases hi : i = i'
    · subst hi
      rw [getD_updAt_eq _ _ _ _ hlen'] at hb'
      exact absurd hb' (by simp [releaseRS])
    · rw [getD_updAt_ne _ _ _ _ _ hi] at hb' hidx'
      exact h g i hlen' hb' hidx'
  · rw [if_neg hg] at hlen' hb' hidx'
    exact h g i hlen' hb' hidx'

theorem RSkeySafe_wbApply (s1 : TomasuloSimulator) (grp : RSGroup) (ri : Nat)
    (p : Nat) (r : Int) (robA : Nat → ReorderBufferEntry) (errs : List String)
    {m : Nat} {g0 : RSGroup} {i0 : Nat} (h : RSkeySafe s1 m g0 i0) :
    RSkeySafe (wbApply s1 grp ri p r robA errs) m g0 i0 := by
  simp only [wbApply]
  apply RSkeySafe_updRS_release
  split
  · apply RSkeySafe_updateDependentRS
    exact RSkeySafe_groups rfl rfl rfl rfl h
  · exact RSkeySafe_groups rfl rfl rfl rfl h

theorem issuedRS_idx (s : TomasuloSimulator) (grp : RSGroup) (ri : Nat) :
    (issuedRS s grp ri).instructionIndex = (s.nextInstructionIndex : Int) := by
  simp only [issuedRS]
  repeat first | rfl | split

theorem RSkeySafe_issueCore (s : TomasuloSimulator) (grp : RSGroup) (ri : Nat)
    {m : Nat} {g0 : RSGroup} {i0 : Nat} (hm : m < s.nextInstructionIndex)
    (h : RSkeySafe s m g0 i0) : RSkeySafe (issueCore s grp ri) m g0 i0 := by
  intro g i hlen hb hidx
  have hlen' := hlen
  rw [rsGroup_issueCore] at hlen'
  have hb' : ((rsGroup (issueCore s grp ri) g).getD i {}).busy = true := hb
  have hidx' :
      ((rsGroup (issueCore s grp ri) g).getD i {}).instructionIndex.toNat = m := hidx
  rw [rsGroup_issueCore] at hb' hidx'
  by_cases hg : g = grp
  · subst hg
    rw [if_pos rfl] at hlen' hb' hidx'
    rw [length_updAt] at hlen'
    by_cases hi : i = ri
    · subst hi
      rw [getD_updAt_eq _ _ _ _ hlen'] at hidx'
      simp only [issuedRS_idx] at hidx'
      exact absurd hidx' (by omega)
    · rw [getD_updAt_ne _ _ _ _ _ hi] at hb' hidx'
      exact h g i hlen' hb' hidx'
  · rw [if_neg hg] at hlen' hb' hidx'
    exact h g i hlen' hb' hidx'

theorem startGo_no_new_m (m : Nat) (g0 : RSGroup) (i0 : Nat) :
    ∀ (entries : List (RSGroup × Nat × ReservationStation))
      (rob : Nat → ReorderBufferEntry) (ex : List ExecutingInstruction),
      (∀ g i rs, (g, i, rs) ∈ entries → rs.busy = true →
        rs.instructionIndex.toNat = m → g = g0 ∧ i = i0) →
      (∃ e ∈ ex, e.rsType = g0 ∧ e.rsIndex = i0) →
      ∃ ex2, (startGo entries rob ex).2 = ex ++ ex2 ∧
        ∀ e ∈ ex2, e.instructionIndex.toNat ≠ m := by
  intro entries
  induction entries with
  | nil => intro rob ex _ _; exact ⟨[], by simp [startGo], by simp⟩
  | cons t rest ih =>
    intro rob ex hent hwit
    obtain ⟨g, i, rs⟩ := t
    have hrest : ∀ g2 i2 rs2, (g2, i2, rs2) ∈ rest → rs2.busy = true →
        rs2.instructionIndex.toNat = m → g2 = g0 ∧ i2 = i0 :=
      fun g2 i2 rs2 h2 => hent g2 i2 rs2 (List.mem_cons_of_mem _ h2)
    simp only [startGo]
    split
    · rename_i hcond
      have hne : rs.instructionIndex.toNat ≠ m := by
        intro hm2
        obtain ⟨hgg, hii⟩ := hent g i rs (List.mem_cons_self _ _) hcond.1 hm2
        obtain ⟨e0, he0, he1, he2⟩ := hwit
        exact hcond.2.2.2 ⟨e0, he0, by rw [hgg]; exact he1, by rw [hii]; exact he2⟩
      have hwit2 : ∃ e ∈ ex ++ [({ rsIndex := i, rsType := g, remainingCycles := dispatchLatency g rs.op, instructionIndex := rs.instructionIndex } : ExecutingInstruction)], e.rsType = g0 ∧ e.rsIndex = i0 := by
        obtain ⟨e0, he0, hp⟩ := hwit
        exact ⟨e0, List.mem_append_left _ he0, hp⟩
      obtain ⟨ex2, he, hm2⟩ := ih _ (ex ++ [({ rsIndex := i, rsType := g, remainingCycles := dispatchLatency g rs.op, instructionIndex := rs.instructionIndex } : ExecutingInstruction)]) hrest hwit2
      have hass : ∀ (e0 : ExecutingInstruction) (l2 : List ExecutingInstruction),
          (ex ++ [e0]) ++ l2 = ex ++ (e0 :: l2) := by
        intro e0 l2
        rw [List.append_assoc]
        rfl
      refine ⟨({ rsIndex := i, rsType := g, remainingCycles := dispatchLatency g rs.op, instructionIndex := rs.instructionIndex } : ExecutingInstruction) :: ex2, he.trans (hass _ _), ?_⟩
      intro e he2
      rcases List.mem_cons.mp he2 with he2 | he2
      · rw [he2]
        exact hne
      · exact hm2 e he2
    · exact ih rob ex hrest hwit

theorem TrackInv_commit (s : TomasuloSimulator) (m : Nat) (g0 : RSGroup)
    (i0 : Nat) (r : Int) (h : TrackInv s m g0 i0 r) :
    TrackInv (commitInstruction s) m g0 i0 r := by
  obtain ⟨h1, h2, h3, h4⟩ := h
  refine ⟨?_, ?_, ?_, ?_⟩
  · rw [commitInstruction_exec]; exact h1
  · rw [commitInstruction_exec]; exact h2
  · exact RSkeySafe_groups (commitInstruction_addRS s) (commitInstruction_mulRS s)
      (commitInstruction_loadRS s) (commitInstruction_storeRS s) h3
  · rw [commitInstruction_next]; exact h4

theorem TrackInv_wb (s : TomasuloSimulator) (m : Nat) (g0 : RSGroup)
    (i0 : Nat) (r : Int) (h : TrackInv s m g0 i0 r) :
    TrackInv (processWriteBack s) m g0 i0 r := by
  obtain ⟨h1, h2, h3, h4⟩ := h
  refine ⟨?_, ?_, ?_, ?_⟩
  · rw [processWriteBack_exec]; exact h1
  · rw [processWriteBack_exec]; exact h2
  · show RSkeySafe (processWriteBack s) m g0 i0
    simp only [processWriteBack]
    split
    · exact h3
    · split
      · exact RSkeySafe_groups rfl rfl rfl rfl h3
      · split
        · exact RSkeySafe_groups rfl rfl rfl rfl h3
        · split
          · exact RSkeySafe_groups rfl rfl rfl rfl h3
          · exact RSkeySafe_wbApply _ _ _ _ _ _ _
              (RSkeySafe_groups rfl rfl rfl rfl h3)
  · rw [processWriteBack_next]; exact h4

theorem TrackInv_issue (s : TomasuloSimulator) (m : Nat) (g0 : RSGroup)
    (i0 : Nat) (r : Int) (h : TrackInv s m g0 i0 r) :
    TrackInv (issueInstruction s) m g0 i0 r := by
  obtain ⟨h1, h2, h3, h4⟩ := h
  refine ⟨?_, ?_, ?_, ?_⟩
  · rw [issueInstruction_exec]; exact h1
  · rw [issueInstruction_exec]; exact h2
  · show RSkeySafe (issueInstruction s) m g0 i0
    simp only [issueInstruction]
    split
    · exact h3
    · split
      · exact h3
      · exact RSkeySafe_issueCore _ _ _ h4 h3
  · exact lt_of_lt_of_le h4 (issueInstruction_next_ge s)

theorem TrackInv_start (s : TomasuloSimulator) (m : Nat) (g0 : RSGroup)
    (i0 : Nat) (r : Int) (h : TrackInv s m g0 i0 r) :
    TrackInv (startExecution s) m g0 i0 r := by
  obtain ⟨h1, h2, h3, h4⟩ := h
  have hwit : ∃ e ∈ s.executingInstructions, e.rsType = g0 ∧ e.rsIndex = i0 := by
    have hpos : 0 < s.executingInstructions.countP
        (fun e => e.instructionIndex.toNat == m) := by omega
    obtain ⟨e, he, hp⟩ := List.countP_pos_iff.mp hpos
    have hem : e.instructionIndex.toNat = m := by simpa using hp
    exact ⟨e, he, (h2 e he hem).2.1, (h2 e he hem).2.2⟩
  have hent : ∀ g i rs, (g, i, rs) ∈ startEntries s → rs.busy = true →
      rs.instructionIndex.toNat = m → g = g0 ∧ i = i0 := by
    intro g i rs hmem hb hidx
    obtain ⟨hlen, heq⟩ := mem_startEntries_getRS s hmem
    refine h3 g i hlen ?_ ?_
    · rw [heq]; exact hb
    · rw [heq]; exact hidx
  obtain ⟨ex2, he, hno⟩ := startGo_no_new_m m g0 i0 (startEntries s) s.rob
    s.executingInstructions hent hwit
  have hex : (startExecution s).executingInstructions
      = s.executingInstructions ++ ex2 := he
  refine ⟨?_, ?_, ?_, ?_⟩
  · rw [hex, List.countP_append, h1]
    have hz : ex2.countP (fun e => e.instructionIndex.toNat == m) = 0 := by
      rw [List.countP_eq_zero]
      intro e hme
      simpa using hno e hme
    rw [hz]
  · intro e hme
    rw [hex] at hme
    rcases List.mem_append.mp hme with hme | hme
    · exact h2 e hme
    · intro hem
      exact absurd hem (hno e hme)
  · exact RSkeySafe_groups (startExecution_addRS s) (startExecution_mulRS s)
      (startExecution_loadRS s) (startExecution_storeRS s) h3
  · rw [startExecution_next]; exact h4

theorem TrackInv_midStep (s : TomasuloSimulator) (m : Nat) (g0 : RSGroup)
    (i0 : Nat) (r : Int) (h : TrackInv s m g0 i0 r) :
    TrackInv (midStep s) m g0 i0 r ∧ (midStep s).cycle = s.cycle ∧
    (midStep s).instructions.length = s.instructions.length := by
  refine ⟨?_, ?_, ?_⟩
  · exact TrackInv_start _ _ _ _ _ (TrackInv_issue _ _ _ _ _ (TrackInv_wb _ _ _ _ _
      (TrackInv_commit _ _ _ _ _ h)))
  · show (startExecution (issueInstruction (processWriteBack
      (commitInstruction s)))).cycle = s.cycle
    rw [startExecution_cycle, issueInstruction_cycle, processWriteBack_cycle,
      commitInstruction_cycle]
  · show (startExecution (issueInstruction (processWriteBack
      (commitInstruction s)))).instructions.length = s.instructions.length
    rw [startExecution_instructions, issueInstruction_instrLen,
      processWriteBack_instrLen, commitInstruction_instrLen]

theorem TrackInv_stepFinish (t : TomasuloSimulator) (m : Nat) (g0 : RSGroup)
    (i0 : Nat) (L : Nat) (hL : 2 ≤ L)
    (h : TrackInv t m g0 i0 (L : Int)) (hlen : m < t.instructions.length) :
    TrackInv (stepFinish t) m g0 i0 ((L - 1 : Nat) : Int) ∧
    (stepFinish t).cycle = t.cycle + 1 ∧
    m < (stepFinish t).instructions.length := by
  obtain ⟨h1, h2, h3, h4⟩ := h
  have h2r : ∀ e ∈ t.executingInstructions, e.instructionIndex.toNat = m →
      e.remainingCycles = (L : Int) := fun e he hm => (h2 e he hm).1
  have hadv := advanceGo_track (t.cycle : Int) m t.executingInstructions
    t.instructions t.completedForCDB (L : Int) h1 h2r hlen
  have h2L : (2 : Int) ≤ (L : Int) := by exact_mod_cast hL
  obtain ⟨ha, hb, hc, hd⟩ := hadv.2 h2L
  have hone : 1 ≤ L := by omega
  have hcast : ((L - 1 : Nat) : Int) = (L : Int) - 1 := by
    rw [Nat.cast_sub hone]
    rfl
  refine ⟨⟨hb, ?_, ?_, h4⟩, rfl, ?_⟩
  · intro e hme hem
    obtain ⟨e0, he0, hT, hI, hX⟩ := advanceGo_sub (t.cycle : Int)
      t.executingInstructions t.instructions t.completedForCDB e hme
    have hem0 : e0.instructionIndex.toNat = m := by rw [← hX]; exact hem
    refine ⟨?_, ?_, ?_⟩
    · rw [hcast]
      exact hc e hme hem
    · rw [hT]
      exact (h2 e0 he0 hem0).2.1
    · rw [hI]
      exact (h2 e0 he0 hem0).2.2
  · exact RSkeySafe_groups (advanceExecution_addRS t) (advanceExecution_mulRS t)
      (advanceExecution_loadRS t) (advanceExecution_storeRS t) h3
  · have hlen2 : (stepFinish t).instructions.length = t.instructions.length := hd
    omega

theorem track_base (t : TomasuloSimulator) (m : Nat) (g0 : RSGroup) (i0 : Nat)
    (h : TrackInv t m g0 i0 1) (hlen : m < t.instructions.length) :
    (getInstr (stepFinish t) m).execComp = (t.cycle : Int) := by
  obtain ⟨h1, h2, h3, h4⟩ := h
  have h2r : ∀ e ∈ t.executingInstructions, e.instructionIndex.toNat = m →
      e.remainingCycles = (1 : Int) := fun e he hm => (h2 e he hm).1
  have hadv := advanceGo_track (t.cycle : Int) m t.executingInstructions
    t.instructions t.completedForCDB 1 h1 h2r hlen
  have hst := hadv.1 (le_refl 1)
  show ((advanceGo (t.cycle : Int) t.executingInstructions t.instructions
    t.completedForCDB).2.1.getD m {}).execComp = (t.cycle : Int)
  rw [hst]

theorem track_main : ∀ (L : Nat), 1 ≤ L → ∀ (t : TomasuloSimulator) (m : Nat)
    (g0 : RSGroup) (i0 : Nat),
    TrackInv t m g0 i0 (L : Int) → m < t.instructions.length →
    (getInstr (runN (L - 1) (stepFinish t)) m).execComp = (t.cycle : Int) + L - 1 := by
  intro L
  induction L with
  | zero => intro h; exact absurd h (by simp)
  | succ k ih =>
    intro _ t m g0 i0 hinv hlen
    cases k with
    | zero =>
      have hb := track_base t m g0 i0 hinv hlen
      show (getInstr (stepFinish t) m).execComp = (t.cycle : Int) + ((1 : Nat) : Int) - 1
      rw [hb]
      omega
    | succ k2 =>
      obtain ⟨hinv1, hcyc1, hlen1⟩ := TrackInv_stepFinish t m g0 i0 (k2 + 2) (by omega)
        hinv hlen
      obtain ⟨hinv2, hcyc2, hlen2⟩ := TrackInv_midStep (stepFinish t) m g0 i0 _ hinv1
      have hrec := ih (by omega) (midStep (stepFinish t)) m g0 i0 hinv2
        (by rw [hlen2]; exact hlen1)
      have hfinal : (getInstr (runN k2 (stepFinish (midStep (stepFinish t)))) m).execComp
          = ((midStep (stepFinish t)).cycle : Int) + ((k2 + 1 : Nat) : Int) - 1 := hrec
      show (getInstr (runN k2 (stepFinish (midStep (stepFinish t)))) m).execComp
        = (t.cycle : Int) + ((k2 + 2 : Nat) : Int) - 1
      rw [hfinal, hcyc2, hcyc1]
      push_cast
      ring

/-- C10: an in-flight record created at Execute-Start during cycle
`c = t.cycle` on station `(g0, i0)` for instruction `m` with `L ≥ 1`
remaining cycles (Execute-Start initialises the counter to the
operation's latency) has the instruction's `executionComplete` stamp set
to exactly `c + L - 1`: the tail of the very same cycle (`stepFinish` =
Execute-Advance plus the cycle increment, so that
`stepSimulation = stepFinish ∘ midStep`) already decrements the counter
once, and each later full cycle decrements it again until it reaches
zero.  `TrackInv` describes the state right after the record's creation
as the machine itself produces it: the record on `(g0, i0)` is the only
one for `m`, the one busy station holding `m` is the dispatching station
`(g0, i0)` itself — whose key now being in the tracker makes the
`alreadyExecuting` scan block any second dispatch of `m` for the whole
window — and `m` is already issued. -/
theorem exec_start_stamp_latency (t : TomasuloSimulator) (m : Nat) (g0 : RSGroup)
    (i0 : Nat) (L : Nat) (hL : 1 ≤ L) (hinv : TrackInv t m g0 i0 (L : Int))
    (hlen : m < t.instructions.length) :
    (getInstr (runN (L - 1) (stepFinish t)) m).execComp = (t.cycle : Int) + L - 1 ∧
    stepSimulation t = stepFinish (midStep t) :=
  ⟨track_main L hL t m g0 i0 hinv hlen, rfl⟩

set_option maxRecDepth 100000 in
/-- C10 witness, at a state the machine itself reaches: `midStep init6`
is scenario 6 right after Execute-Start of cycle 0, where the ADD
(instruction 0, latency 2) has just been dispatched onto ADD station 0;
the invariant holds there and the stamp lands at cycle 1 = 0 + 2 - 1. -/
theorem exec_start_stamp_latency_witness :
    1 ≤ 2 ∧ TrackInv (midStep init6) 0 ADDg 0 ((2 : Nat) : Int) ∧
    0 < (midStep init6).instructions.length ∧
    ((getInstr (runN (2 - 1) (stepFinish (midStep init6))) 0).execComp
        = ((midStep init6).cycle : Int) + 2 - 1 ∧
      stepSimulation (midStep init6) = stepFinish (midStep (midStep init6))) :=
  ⟨by decide, by decide, by decide,
    exec_start_stamp_latency (midStep init6) 0 ADDg 0 2 (by decide) (by decide)
      (by decide)⟩

end Tomasulo
